import Mathlib

/-!
Shallow embedding of the someip-parser repository (Rust) in Lean 4.

Conventions of the embedding:
* Bytes are `Nat` values (callers supply values < 256); multi-byte big-endian
  reads combine bytes arithmetically, exactly as `nom`'s `be_u16`/`be_u24`/`be_u32` do.
* Machine-integer overflow that matters is modelled with explicit `% 2^w`
  (release-mode wrapping semantics); Rust slice indexing out of bounds is
  modelled by the distinguished outcome `panicked`.
* `nom::IResult` parsers become functions `List Nat → PRes α` where `PRes.ok`
  carries the remaining input, `PRes.err` is a parse error, and `PRes.panicked`
  marks a Rust panic reachable inside the parser.
* `HashSet<u16>` becomes a duplicate-free `List Nat` with membership-checked
  insertion; `HashMap` becomes an association list where insertion replaces the
  binding of an existing key; `VecDeque` becomes a `List`.
* `Instant`/`SystemTime` values become `Nat` clock readings; each call that the
  source makes to `Instant::now()` during the processing of one packet is
  modelled by the single per-packet clock value that the embedding threads in.
* Error message strings are dropped: `SomeIPError` keeps only the constructor.
-/

namespace SomeipSpec

/-- Outcome of running a byte parser: success with remaining input, a `nom`
parse error, or a Rust panic (out-of-bounds slice / checked arithmetic). -/
inductive PRes (α : Type) where
  | ok (rest : List Nat) (val : α)
  | err
  | panicked
deriving DecidableEq, Repr

/-- A `nom`-style parser over a byte list. -/
def ByteP (α : Type) : Type := List Nat → PRes α

instance : Monad ByteP where
  pure a := fun inp => .ok inp a
  bind p f := fun inp =>
    match p inp with
    | .ok rest v => f v rest
    | .err => .err
    | .panicked => .panicked

/-- Parser that fails with a `nom` error (used for unknown selectors). -/
def perr {α : Type} : ByteP α := fun _ => .err

/-- Parser outcome of a Rust panic. -/
def ppanic {α : Type} : ByteP α := fun _ => .panicked

/-- Read one byte (`nom::number::complete::be_u8`). -/
def beU8 : ByteP Nat := fun inp =>
  match inp with
  | [] => .err
  | b :: rest => .ok rest b

/-- Read `n` bytes (`nom::bytes::complete::take`). -/
def takeN (n : Nat) : ByteP (List Nat) := fun inp =>
  if n ≤ inp.length then .ok (inp.drop n) (inp.take n) else .err

/-- Big-endian 16-bit read. -/
def beU16 : ByteP Nat := do
  let a ← beU8
  let b ← beU8
  pure (a * 256 + b)

/-- Big-endian 24-bit read. -/
def beU24 : ByteP Nat := do
  let a ← beU8
  let b ← beU8
  let c ← beU8
  pure (a * 65536 + b * 256 + c)

/-- Big-endian 32-bit read. -/
def beU32 : ByteP Nat := do
  let a ← beU16
  let b ← beU16
  pure (a * 65536 + b)

/-- Consume the whole remaining input (the `input.to_vec()` pattern the source
uses for trailing payloads). -/
def takeRest : ByteP (List Nat) := fun inp => .ok [] inp

/-! ## src/parser/transport_layer.rs -/

/-- Embedding of `TCPFlags` from src/parser/transport_layer.rs. -/
structure TCPFlags where
  ns : Bool
  cwr : Bool
  ece : Bool
  urg : Bool
  ack : Bool
  psh : Bool
  rst : Bool
  syn : Bool
  fin : Bool
deriving DecidableEq, Repr

/-- Embedding of `TCPPacketInfo` from src/parser/transport_layer.rs. -/
structure TCPPacketInfo where
  src_port : Nat
  dst_port : Nat
  seq_num : Nat
  ack_num : Nat
  data_offset : Nat
  reserved : Nat
  flags : TCPFlags
  window_size : Nat
  checksum : Nat
  urgent_ptr : Nat
  options : List Nat
  payload : List Nat
deriving DecidableEq, Repr

/-- Embedding of `UDPPacketInfo` from src/parser/transport_layer.rs. -/
structure UDPPacketInfo where
  src_port : Nat
  dst_port : Nat
  length : Nat
  checksum : Nat
  payload : List Nat
deriving DecidableEq, Repr

/-- Embedding of `TransportLayer` from src/parser/transport_layer.rs. -/
inductive TransportLayer where
  | UDP (udp : UDPPacketInfo)
  | TCP (tcp : TCPPacketInfo)
deriving DecidableEq, Repr

/-- Embedding of `parse_udp` from src/parser/transport_layer.rs. -/
def parse_udp : ByteP TransportLayer := do
  let src_port ← beU16
  let dst_port ← beU16
  let length ← beU16
  let checksum ← beU16
  let payload ← takeRest
  pure (.UDP ⟨src_port, dst_port, length, checksum, payload⟩)

/-- Bit test helper: `(x & mask) != 0`. -/
def bitSet (x mask : Nat) : Bool := x.land mask ≠ 0

/-- Embedding of `parse_tcp` from src/parser/transport_layer.rs.  The flag masks are the
source's, verbatim (several are `0x0000`).  `data_offset * 4 - 20` is `u8`
arithmetic; its release-mode wrapping is modelled by `(… + 236) % 256`. -/
def parse_tcp : ByteP TransportLayer := do
  let src_port ← beU16
  let dst_port ← beU16
  let seq_num ← beU32
  let ack_num ← beU32
  let dorf ← beU16
  let data_offset := (dorf >>> 12).land 0x0F
  let reserved := (dorf >>> 6).land 0x3F
  let flags : TCPFlags :=
    { ns := bitSet dorf 0x0020
      cwr := bitSet dorf 0x0010
      ece := bitSet dorf 0x0008
      urg := bitSet dorf 0x0004
      ack := bitSet dorf 0x0002
      psh := bitSet dorf 0x0001
      rst := bitSet dorf 0x0000
      syn := bitSet dorf 0x0000
      fin := bitSet dorf 0x0000 }
  let window_size ← beU16
  let checksum ← beU16
  let urgent_ptr ← beU16
  let options_size := (data_offset * 4 + 236) % 256
  let options ← if options_size > 0 then takeN options_size else pure []
  let payload ← takeRest
  pure (.TCP ⟨src_port, dst_port, seq_num, ack_num, data_offset, reserved, flags,
              window_size, checksum, urgent_ptr, options, payload⟩)

/-- Embedding of `parse_transport_layer` from src/parser/transport_layer.rs. -/
def parse_transport_layer (protocol : Nat) : ByteP TransportLayer :=
  match protocol with
  | 17 => parse_udp
  | 6 => parse_tcp
  | _ => perr

/-! ## src/parser/network_layer.rs -/

/-- Embedding of `IPv4PacketInfo` from src/parser/network_layer.rs. -/
structure IPv4PacketInfo where
  version : Nat
  header_length : Nat
  dscp : Nat
  ecn : Nat
  total_length : Nat
  identification : Nat
  flags : Nat
  fragment_offset : Nat
  ttl : Nat
  protocol : Nat
  checksum : Nat
  src_ip : List Nat
  dst_ip : List Nat
  payload : List Nat
deriving DecidableEq, Repr

/-- Embedding of `IPv6PacketInfo` from src/parser/network_layer.rs. -/
structure IPv6PacketInfo where
  version : Nat
  traffic_class : Nat
  flow_label : Nat
  payload_length : Nat
  next_header : Nat
  hop_limit : Nat
  src_ip : List Nat
  dst_ip : List Nat
  payload : List Nat
deriving DecidableEq, Repr

/-- Embedding of `NetworkLayer` from src/parser/network_layer.rs. -/
inductive NetworkLayer where
  | IPv4 (v4 : IPv4PacketInfo)
  | IPv6 (v6 : IPv6PacketInfo)
deriving DecidableEq, Repr

/-- Embedding of `parse_ipv4` from src/parser/network_layer.rs.  The payload slice
`&input[..(total_length as usize - payload_start)]` panics when
`total_length < ihl*4` (usize underflow, then out-of-bounds) or when the slice
length exceeds the bytes remaining after the 20 fixed header bytes. -/
def parse_ipv4 : ByteP NetworkLayer := do
  let version_ihl ← beU8
  let version := version_ihl >>> 4
  let ihl := version_ihl.land 0x0F
  let dscp_ecn ← beU8
  let dscp := dscp_ecn >>> 2
  let ecn := dscp_ecn.land 0x03
  let total_length ← beU16
  let identification ← beU16
  let flags_fragment ← beU16
  let flags := flags_fragment >>> 13
  let fragment_offset := flags_fragment.land 0x1FFF
  let ttl ← beU8
  let protocol_num ← beU8
  let checksum ← beU16
  let src_ip ← takeN 4
  let dst_ip ← takeN 4
  let payload_start := ihl * 4
  fun rest =>
    if total_length < payload_start then .panicked
    else if total_length - payload_start > rest.length then .panicked
    else .ok []
      (.IPv4 ⟨version, ihl, dscp, ecn, total_length, identification, flags,
              fragment_offset, ttl, protocol_num, checksum, src_ip, dst_ip,
              rest.take (total_length - payload_start)⟩)

/-- Embedding of `parse_ipv6` from src/parser/network_layer.rs. -/
def parse_ipv6 : ByteP NetworkLayer := do
  let version_tc_fl ← beU32
  let version := version_tc_fl >>> 28
  let traffic_class := (version_tc_fl >>> 20).land 0xFF
  let flow_label := version_tc_fl.land 0x000FFFFF
  let payload_length ← beU16
  let next_header ← beU8
  let hop_limit ← beU8
  let src_ip ← takeN 16
  let dst_ip ← takeN 16
  let payload ← takeRest
  pure (.IPv6 ⟨version, traffic_class, flow_label, payload_length, next_header,
               hop_limit, src_ip, dst_ip, payload⟩)

/-- Embedding of `parse_network_layer` from src/parser/network_layer.rs. -/
def parse_network_layer (ethertype : Nat) : ByteP NetworkLayer :=
  match ethertype with
  | 0x0800 => parse_ipv4
  | 0x86DD => parse_ipv6
  | _ => perr

/-! ## src/parser/link_layer.rs -/

/-- Embedding of `VlanTag` from src/parser/link_layer.rs. -/
structure VlanTag where
  tci : Nat
  ethertype : Nat
deriving DecidableEq, Repr

/-- Embedding of `EthernetFrame` from src/parser/link_layer.rs. -/
structure EthernetFrame where
  dst_mac : List Nat
  src_mac : List Nat
  vlan : Option VlanTag
  ethertype : Nat
  payload : List Nat
deriving DecidableEq, Repr

/-- Embedding of `SLLHeader` from src/parser/link_layer.rs. -/
structure SLLHeader where
  packet_type : Nat
  link_layer_addr_type : Nat
  link_layer_addr_len : Nat
  link_layer_addr : List Nat
  protocol : Nat
  payload : List Nat
deriving DecidableEq, Repr

/-- Embedding of `LinkLayer` from src/parser/link_layer.rs. -/
inductive LinkLayer where
  | Ethernet (eth : EthernetFrame)
  | SLL (sll : SLLHeader)
deriving DecidableEq, Repr

/-- Embedding of `parse_ethernet` from src/parser/link_layer.rs. -/
def parse_ethernet : ByteP LinkLayer := do
  let dst_mac ← takeN 6
  let src_mac ← takeN 6
  let ethertype ← beU16
  let vlan ←
    if ethertype == 0x8100 || ethertype == 0x88A8 || ethertype == 0x9100 then do
      let tci ← beU16
      let inner ← beU16
      pure (some (⟨tci, inner⟩ : VlanTag))
    else
      pure none
  let payload ← takeRest
  pure (.Ethernet ⟨dst_mac, src_mac, vlan,
                   (vlan.map VlanTag.ethertype).getD ethertype, payload⟩)

/-- Embedding of `parse_sll` from src/parser/link_layer.rs. -/
def parse_sll : ByteP LinkLayer := do
  let packet_type ← beU16
  let addr_type ← beU16
  let addr_len ← beU16
  let addr ← takeN addr_len
  let protocol ← beU16
  let payload ← takeRest
  pure (.SLL ⟨packet_type, addr_type, addr_len, addr, protocol, payload⟩)

/-- Embedding of `parse_link_layer` from src/parser/link_layer.rs. -/
def parse_link_layer : ByteP LinkLayer := fun inp =>
  if 16 ≤ inp.length ∧ inp.take 2 = [0x00, 0x00] then parse_sll inp
  else parse_ethernet inp

/-! ## src/parser/someip/header.rs -/

/-- Embedding of `MessageType` from src/parser/someip/header.rs. -/
inductive MessageType where
  | Request
  | RequestNoReturn
  | Notification
  | RequestACK
  | RequestNoReturnACK
  | NotificationACK
  | Response
  | Error
  | ResponseACK
  | ErrorACK
  | Unknown (value : Nat)
deriving DecidableEq, Repr

/-- Embedding of `MessageType::as_u8` from src/parser/someip/header.rs. -/
def MessageType.as_u8 : MessageType → Nat
  | .Request => 0x00
  | .RequestNoReturn => 0x01
  | .Notification => 0x02
  | .RequestACK => 0x40
  | .RequestNoReturnACK => 0x41
  | .NotificationACK => 0x42
  | .Response => 0x80
  | .Error => 0x81
  | .ResponseACK => 0xC0
  | .ErrorACK => 0xC1
  | .Unknown value => value

/-- Embedding of `ReturnCode` from src/parser/someip/header.rs. -/
inductive ReturnCode where
  | Ok
  | NotOk
  | UnknownService
  | UnknownMethod
  | NotReady
  | NotReachable
  | Timeout
  | WrongProtocolVersion
  | WrongInterfaceVersion
  | MalformedMessage
  | WrongMessageType
  | Unknown (value : Nat)
deriving DecidableEq, Repr

/-- Embedding of `SomeIPHeader` from src/parser/someip/header.rs. -/
structure SomeIPHeader where
  service_id : Nat
  method_id : Nat
  length : Nat
  client_id : Nat
  session_id : Nat
  protocol_version : Nat
  interface_version : Nat
  message_type : MessageType
  return_code : ReturnCode
deriving DecidableEq, Repr

/-- Embedding of `parse_message_type` from src/parser/someip/header.rs. -/
def parse_message_type (value : Nat) : MessageType :=
  match value with
  | 0x00 => .Request
  | 0x01 => .RequestNoReturn
  | 0x02 => .Notification
  | 0x40 => .RequestACK
  | 0x41 => .RequestNoReturnACK
  | 0x42 => .NotificationACK
  | 0x80 => .Response
  | 0x81 => .Error
  | 0xC0 => .ResponseACK
  | 0xC1 => .ErrorACK
  | _ => .Unknown value

/-- Embedding of `parse_return_code` from src/parser/someip/header.rs. -/
def parse_return_code (value : Nat) : ReturnCode :=
  match value with
  | 0x00 => .Ok
  | 0x01 => .NotOk
  | 0x02 => .UnknownService
  | 0x03 => .UnknownMethod
  | 0x04 => .NotReady
  | 0x05 => .NotReachable
  | 0x06 => .Timeout
  | 0x07 => .WrongProtocolVersion
  | 0x08 => .WrongInterfaceVersion
  | 0x09 => .MalformedMessage
  | 0x0A => .WrongMessageType
  | _ => .Unknown value

/-- Embedding of `parse_someip_header` from src/parser/someip/header.rs. -/
def parse_someip_header : ByteP SomeIPHeader := do
  let service_id ← beU16
  let method_id ← beU16
  let length ← beU32
  let client_id ← beU16
  let session_id ← beU16
  let protocol_version ← beU8
  let interface_version ← beU8
  let message_type ← beU8
  let return_code ← beU8
  pure ⟨service_id, method_id, length, client_id, session_id, protocol_version,
        interface_version, parse_message_type message_type,
        parse_return_code return_code⟩

/-! ## Association-list model of `HashMap`, and a step-result type -/

/-- Outcome of a stateful step (`Result` in the source, plus the `panicked`
outcome for reachable Rust panics). -/
inductive StepRes (α : Type) where
  | ok (val : α)
  | err
  | panicked
deriving DecidableEq, Repr

/-- Embedding of `HashMap` lookup on an association list. -/
def alistLookup {κ ν : Type} [BEq κ] (k : κ) (l : List (κ × ν)) : Option ν :=
  (l.find? (fun p => p.1 == k)).map (·.2)

/-- Embedding of `HashMap::insert` on an association list: replaces an existing binding. -/
def alistInsert {κ ν : Type} [BEq κ] (k : κ) (v : ν) (l : List (κ × ν)) : List (κ × ν) :=
  l.filter (fun p => !(p.1 == k)) ++ [(k, v)]

/-- Embedding of `HashMap::remove` on an association list. -/
def alistRemove {κ ν : Type} [BEq κ] (k : κ) (l : List (κ × ν)) : List (κ × ν) :=
  l.filter (fun p => !(p.1 == k))

/-- In-place mutation through `get_mut` on an association list. -/
def alistUpdate {κ ν : Type} [BEq κ] (k : κ) (f : ν → ν) (l : List (κ × ν)) : List (κ × ν) :=
  l.map (fun p => if p.1 == k then (p.1, f p.2) else p)

/-! ## src/parser/someip/sd_parser.rs -/

/-- Embedding of `SDFlags` from src/parser/someip/sd_parser.rs. -/
structure SDFlags where
  reboot : Bool
  unicast : Bool
  explicit_initial_data_control : Bool
deriving DecidableEq, Repr

/-- Embedding of `FindServiceEntry` / `OfferServiceEntry` field set (identical in the
source; the constructor in `SDEntry` keeps them apart). -/
structure ServiceEntryFields where
  service_id : Nat
  instance_id : Nat
  major_version : Nat
  ttl : Nat
  minor_version : Nat
  first_options_index : Nat
  number_of_first_options : Nat
  second_options_index : Nat
  number_of_second_options : Nat
deriving DecidableEq, Repr

/-- Embedding of `SubscribeEventgroupEntry` field set from src/parser/someip/sd_parser.rs. -/
structure EventgroupEntryFields where
  service_id : Nat
  instance_id : Nat
  major_version : Nat
  ttl : Nat
  eventgroup_id : Nat
  reserved : Nat
  first_options_index : Nat
  number_of_first_options : Nat
  second_options_index : Nat
  number_of_second_options : Nat
deriving DecidableEq, Repr

/-- Embedding of `SDEntry` from src/parser/someip/sd_parser.rs. -/
inductive SDEntry where
  | FindService (e : ServiceEntryFields)
  | OfferService (e : ServiceEntryFields)
  | SubscribeEventgroup (e : EventgroupEntryFields)
  | SubscribeEventgroupAck (e : EventgroupEntryFields) (return_code : ReturnCode)
  | Unknown (entry_type : Nat) (data : List Nat)
deriving DecidableEq, Repr

/-- Embedding of `TransportProtocol` from src/parser/someip/sd_parser.rs. -/
inductive TransportProtocol where
  | TCP
  | UDP
  | Unknown (value : Nat)
deriving DecidableEq, Repr

/-- Shared shape of the six endpoint-style SD option bodies
(`IP bytes || u8 protocol || u16 port`). -/
structure EndpointFields where
  ip_address : List Nat
  transport_protocol : TransportProtocol
  port : Nat
deriving DecidableEq, Repr

/-- Embedding of `SDOption` from src/parser/someip/sd_parser.rs.  Configuration items are
kept as raw byte lists (the source's lossy UTF-8 rendering is dropped). -/
inductive SDOption where
  | Configuration (items : List (List Nat))
  | LoadBalancing (strategy : Nat) (priority : Nat) (weight : Nat)
  | Ipv4Endpoint (o : EndpointFields)
  | Ipv6Endpoint (o : EndpointFields)
  | Ipv4Multicast (o : EndpointFields)
  | Ipv6Multicast (o : EndpointFields)
  | Ipv4SDEndpoint (o : EndpointFields)
  | Ipv6SDEndpoint (o : EndpointFields)
  | Unknown (option_type : Nat) (data : List Nat)
deriving DecidableEq, Repr

/-- Embedding of `SDPacket` from src/parser/someip/sd_parser.rs. -/
structure SDPacket where
  header : SomeIPHeader
  flags : SDFlags
  entries : List SDEntry
  options : List SDOption
deriving DecidableEq, Repr

/-- Byte-level protocol selector shared by the endpoint option parsers. -/
def decodeTransportProtocol (protocol : Nat) : TransportProtocol :=
  match protocol with
  | 0x06 => .TCP
  | 0x11 => .UDP
  | _ => .Unknown protocol

/-- Embedding of `parse_ipv4_endpoint_option` and its five siblings share this body parser
(`IP bytes || u8 protocol || u16 port`), differing only in the IP width. -/
def parse_endpoint_fields (ipLen : Nat) : ByteP EndpointFields := do
  let ip_bytes ← takeN ipLen
  let protocol ← beU8
  let port ← beU16
  pure ⟨ip_bytes, decodeTransportProtocol protocol, port⟩

/-- Embedding of `parse_ipv4_endpoint_option` from src/parser/someip/sd_parser.rs. -/
def parse_ipv4_endpoint_option : ByteP SDOption := do
  let o ← parse_endpoint_fields 4
  pure (.Ipv4Endpoint o)

/-- Embedding of `parse_ipv6_endpoint_option` from src/parser/someip/sd_parser.rs. -/
def parse_ipv6_endpoint_option : ByteP SDOption := do
  let o ← parse_endpoint_fields 16
  pure (.Ipv6Endpoint o)

/-- Embedding of `parse_ipv4_multicast_option` from src/parser/someip/sd_parser.rs. -/
def parse_ipv4_multicast_option : ByteP SDOption := do
  let o ← parse_endpoint_fields 4
  pure (.Ipv4Multicast o)

/-- Embedding of `parse_ipv6_multicast_option` from src/parser/someip/sd_parser.rs. -/
def parse_ipv6_multicast_option : ByteP SDOption := do
  let o ← parse_endpoint_fields 16
  pure (.Ipv6Multicast o)

/-- Embedding of `parse_ipv4_sd_endpoint_option` from src/parser/someip/sd_parser.rs. -/
def parse_ipv4_sd_endpoint_option : ByteP SDOption := do
  let o ← parse_endpoint_fields 4
  pure (.Ipv4SDEndpoint o)

/-- Embedding of `parse_ipv6_sd_endpoint_option` from src/parser/someip/sd_parser.rs. -/
def parse_ipv6_sd_endpoint_option : ByteP SDOption := do
  let o ← parse_endpoint_fields 16
  pure (.Ipv6SDEndpoint o)

/-- Embedding of `parse_load_balancing_option` from src/parser/someip/sd_parser.rs. -/
def parse_load_balancing_option : ByteP SDOption := do
  let strategy ← beU8
  let priority ← beU16
  let weight ← beU16
  pure (.LoadBalancing strategy priority weight)

/-- Embedding of `parse_configuration_item` from src/parser/someip/sd_parser.rs. -/
def parse_configuration_item : ByteP (List Nat) := fun inp =>
  match beU16 inp with
  | .ok rest length =>
    if length > rest.length then .err
    else .ok (rest.drop length) (rest.take length)
  | .err => .err
  | .panicked => .panicked

/-- Embedding of `nom::multi::many0 parse_configuration_item`: repeat until the item parser
fails, collecting results.  Each success consumes at least the two length
bytes, so a fuel of `inp.length + 1` can never run out; the recursion is on
the fuel so that the definition reduces definitionally. -/
def many0_items_fuel : Nat → List Nat → List (List Nat)
  | 0, _ => []
  | fuel + 1, inp =>
    match parse_configuration_item inp with
    | .ok rest item => item :: many0_items_fuel fuel rest
    | .err => []
    | .panicked => []

/-- Embedding of `nom::multi::many0 parse_configuration_item` at its entry point. -/
def many0_configuration_items (inp : List Nat) : List (List Nat) :=
  many0_items_fuel (inp.length + 1) inp

/-- Embedding of `parse_configuration_option` from src/parser/someip/sd_parser.rs. -/
def parse_configuration_option : ByteP SDOption := fun inp =>
  .ok [] (.Configuration (many0_configuration_items inp))

/-- Embedding of `parse_sd_entry` from src/parser/someip/sd_parser.rs. -/
def parse_sd_entry : ByteP SDEntry := do
  let entry_type ← beU8
  let first_options_index ← beU8
  let second_options_index ← beU8
  let options_count_byte ← beU8
  let number_of_first_options := options_count_byte.land 0x0F
  let number_of_second_options := (options_count_byte >>> 4).land 0x0F
  let service_id ← beU16
  let instance_id ← beU16
  let major_version ← beU8
  let ttl ← beU24
  match entry_type with
  | 0x00 => do
    let minor_version ← beU32
    pure (.FindService ⟨service_id, instance_id, major_version, ttl, minor_version,
          first_options_index, number_of_first_options,
          second_options_index, number_of_second_options⟩)
  | 0x01 => do
    let minor_version ← beU32
    pure (.OfferService ⟨service_id, instance_id, major_version, ttl, minor_version,
          first_options_index, number_of_first_options,
          second_options_index, number_of_second_options⟩)
  | 0x06 => do
    let reserved ← beU16
    let eventgroup_id ← beU16
    pure (.SubscribeEventgroup ⟨service_id, instance_id, major_version, ttl,
          eventgroup_id, reserved, first_options_index, number_of_first_options,
          second_options_index, number_of_second_options⟩)
  | 0x07 => do
    let reserved ← beU16
    let eventgroup_id ← beU16
    let return_code ← beU8
    pure (.SubscribeEventgroupAck ⟨service_id, instance_id, major_version, ttl,
          eventgroup_id, reserved, first_options_index, number_of_first_options,
          second_options_index, number_of_second_options⟩
          (parse_return_code return_code))
  | _ => do
    let data ← takeN 8
    pure (.Unknown entry_type data)

/-- Embedding of `nom::multi::count`: run a parser exactly `n` times. -/
def countP {α : Type} (p : ByteP α) : Nat → ByteP (List α)
  | 0 => pure []
  | n + 1 => do
    let x ← p
    let xs ← countP p n
    pure (x :: xs)

/-- Per-option dispatch inside `parse_sd_options`.  The sub-parser runs on the
`option_data` slice; for unknown types the raw bytes are kept. -/
def parse_one_sd_option (option_type : Nat) (option_data : List Nat) : PRes SDOption :=
  match option_type with
  | 0x01 => parse_configuration_option option_data
  | 0x02 => parse_load_balancing_option option_data
  | 0x04 => parse_ipv4_endpoint_option option_data
  | 0x06 => parse_ipv6_endpoint_option option_data
  | 0x14 => parse_ipv4_multicast_option option_data
  | 0x16 => parse_ipv6_multicast_option option_data
  | 0x24 => parse_ipv4_sd_endpoint_option option_data
  | 0x26 => parse_ipv6_sd_endpoint_option option_data
  | _ => .ok [] (.Unknown option_type option_data)

/-- Loop body of `parse_sd_options` from src/parser/someip/sd_parser.rs: while
at least 4 bytes remain, read the option length, stop when it is below 4 or
overruns the remaining region, parse one option, and advance.  Each iteration
consumes `option_length ≥ 4` bytes, so a fuel of `remaining.length + 1` can
never run out; the recursion is on the fuel so that the definition reduces
definitionally. -/
def sd_options_fuel : Nat → List Nat → PRes (List SDOption)
  | 0, remaining => .ok remaining []
  | fuel + 1, remaining =>
    if remaining.length < 4 then .ok remaining []
    else
      let option_length := remaining.getD 0 0 * 256 + remaining.getD 1 0
      if option_length < 4 ∨ option_length > remaining.length then .ok remaining []
      else
        let option_type := remaining.getD 2 0
        let rest := remaining.drop 4
        let option_data := rest.take (option_length - 4)
        match parse_one_sd_option option_type option_data with
        | .ok _ option =>
          match sd_options_fuel fuel (rest.drop (option_length - 4)) with
          | .ok r options => .ok r (option :: options)
          | .err => .err
          | .panicked => .panicked
        | .err => .err
        | .panicked => .panicked

/-- Loop of `parse_sd_options` at its entry point. -/
def sd_options_loop (remaining : List Nat) : PRes (List SDOption) :=
  sd_options_fuel (remaining.length + 1) remaining

/-- Embedding of `parse_sd_options` from src/parser/someip/sd_parser.rs.  The initial
`&input[..length]` slice panics when `length` exceeds the input. -/
def parse_sd_options (length : Nat) : ByteP (List SDOption) := fun inp =>
  if length > inp.length then .panicked
  else
    match sd_options_loop (inp.take length) with
    | .ok _ options => .ok (inp.drop length) options
    | .err => .err
    | .panicked => .panicked

/-- Embedding of `parse_sd_packet` from src/parser/someip/sd_parser.rs. -/
def parse_sd_packet (header : SomeIPHeader) : ByteP SDPacket := do
  let flags_byte ← beU8
  let flags : SDFlags :=
    { reboot := bitSet flags_byte 0x80
      unicast := bitSet flags_byte 0x40
      explicit_initial_data_control := bitSet flags_byte 0x20 }
  let _ ← takeN 3
  let entries_length ← beU32
  let entries_count := entries_length / 16
  let entries ← countP parse_sd_entry entries_count
  let options_length ← beU32
  let options ← parse_sd_options options_length
  pure ⟨header, flags, entries, options⟩

/-! ## src/parser/someip/tp_parser.rs -/

/-- Wrap-around of Rust `u32` arithmetic (release semantics). -/
def w32 (n : Nat) : Nat := n % 4294967296

/-- Embedding of `TPSegment` from src/parser/someip/tp_parser.rs. -/
structure TPSegment where
  header : SomeIPHeader
  is_first : Bool
  is_last : Bool
  offset : Nat
  payload : List Nat
deriving DecidableEq, Repr

/-- Embedding of `ReassembledMessage` from src/parser/someip/tp_parser.rs. -/
structure ReassembledMessage where
  header : SomeIPHeader
  payload : List Nat
deriving DecidableEq, Repr

/-- Embedding of `PendingMessage` from src/parser/someip/tp_parser.rs. -/
structure PendingMessage where
  header : SomeIPHeader
  segments : List (Nat × List Nat)
  expected_offset : Nat
  total_size : Option Nat
  last_updated : Nat
deriving DecidableEq, Repr

/-- Embedding of `TPParser` from src/parser/someip/tp_parser.rs. -/
structure TPParser where
  pending_messages : List ((Nat × Nat × Nat) × PendingMessage)
  timeout : Nat
deriving DecidableEq, Repr

/-- Embedding of `TPParser::new` from src/parser/someip/tp_parser.rs. -/
def TPParser.new (timeout : Nat) : TPParser := ⟨[], timeout⟩

/-- Embedding of `TPParser::cleanup_expired_messages` from src/parser/someip/tp_parser.rs. -/
def TPParser.cleanup_expired_messages (self : TPParser) (now : Nat) : TPParser :=
  { self with pending_messages :=
      self.pending_messages.filter (fun p => now - p.2.last_updated ≤ self.timeout) }

/-- Overwrite `buf[off .. off + data.length]` with `data`
(`copy_from_slice` target range). -/
def listWriteAt (buf : List Nat) (off : Nat) (data : List Nat) : List Nat :=
  buf.take off ++ data ++ buf.drop (off + data.length)

/-- Insertion step of sorting the stored segments by offset
(`segments.sort_by_key(|(off, _)| *off)`); map keys are distinct, so
stability is irrelevant. -/
def insertByFst (p : Nat × List Nat) : List (Nat × List Nat) → List (Nat × List Nat)
  | [] => [p]
  | q :: rest => if p.1 < q.1 then p :: q :: rest else q :: insertByFst p rest

/-- Sort an offset-keyed segment list by offset. -/
def sortByFst (l : List (Nat × List Nat)) : List (Nat × List Nat) :=
  l.foldl (fun acc p => insertByFst p acc) []

/-- Copy loop of `TPParser::reassemble_message`: each stored segment is copied
into the buffer at its offset; a segment reaching past the end of the buffer
makes the Rust range-indexing panic. -/
def copySegments (buf : List Nat) : List (Nat × List Nat) → StepRes (List Nat)
  | [] => .ok buf
  | (off, data) :: rest =>
    if off + data.length ≤ buf.length then copySegments (listWriteAt buf off data) rest
    else .panicked

/-- Embedding of `TPParser::reassemble_message` from src/parser/someip/tp_parser.rs. -/
def TPParser.reassemble_message (pending_msg : PendingMessage) : StepRes ReassembledMessage :=
  match pending_msg.total_size with
  | none => .err
  | some total_size =>
    match copySegments (List.replicate total_size 0) (sortByFst pending_msg.segments) with
    | .ok payload => .ok ⟨pending_msg.header, payload⟩
    | .err => .err
    | .panicked => .panicked

/-- Embedding of `TPParser::process_segment` from src/parser/someip/tp_parser.rs.
Mutations that the source applies through `get_mut` are modelled by computing
the updated entry and storing it back; `err`/`panicked` abort the computation
exactly where the source propagates an error or panics. -/
def TPParser.process_segment (self : TPParser) (now : Nat) (segment : TPSegment) :
    StepRes (Option ReassembledMessage × TPParser) :=
  let key := (segment.header.service_id, segment.header.client_id, segment.header.session_id)
  let self1 := self.cleanup_expired_messages now
  if segment.is_first then
    let total_size :=
      if segment.is_last then w32 (segment.offset + segment.payload.length)
      else w32 (segment.header.length + 4294967296 - 8)
    let pm : PendingMessage :=
      ⟨segment.header, [(segment.offset, segment.payload)],
       w32 (segment.offset + segment.payload.length), some total_size, now⟩
    let self2 := { self1 with pending_messages := alistInsert key pm self1.pending_messages }
    if segment.is_last then .ok (some ⟨segment.header, segment.payload⟩, self2)
    else .ok (none, self2)
  else
    match alistLookup key self1.pending_messages with
    | none => .ok (none, self1)
    | some pm0 =>
      let pm1 := { pm0 with last_updated := now }
      if segment.offset ≠ pm1.expected_offset then
        let pm2 := { pm1 with segments := alistInsert segment.offset segment.payload pm1.segments }
        .ok (none, { self1 with pending_messages := alistInsert key pm2 self1.pending_messages })
      else
        let pm2 := { pm1 with
          segments := alistInsert segment.offset segment.payload pm1.segments,
          expected_offset := w32 (pm1.expected_offset + segment.payload.length) }
        let pm3 :=
          if segment.is_last then
            { pm2 with total_size := some (w32 (segment.offset + segment.payload.length)) }
          else pm2
        match pm3.total_size with
        | some total_size =>
          if total_size ≤ pm3.expected_offset then
            let self2 := { self1 with pending_messages := alistRemove key self1.pending_messages }
            match TPParser.reassemble_message pm3 with
            | .ok m => .ok (some m, self2)
            | .err => .err
            | .panicked => .panicked
          else .ok (none, { self1 with pending_messages := alistInsert key pm3 self1.pending_messages })
        | none => .ok (none, { self1 with pending_messages := alistInsert key pm3 self1.pending_messages })

/-- Embedding of `parse_tp_segment` from src/parser/someip/tp_parser.rs. -/
def parse_tp_segment (payload : List Nat) (header : SomeIPHeader) : StepRes TPSegment :=
  if payload.length < 5 then .err
  else
    let first_byte := payload.getD 0 0
    let is_first := bitSet first_byte 0x80
    let is_last := bitSet first_byte 0x40
    let offset :=
      if is_first then
        (first_byte.land 0x3F) * 65536 + payload.getD 1 0 * 256 + payload.getD 2 0
      else
        payload.getD 0 0 * 16777216 + payload.getD 1 0 * 65536 +
          payload.getD 2 0 * 256 + payload.getD 3 0
    let data_offset := if is_first then 3 else 4
    .ok ⟨header, is_first, is_last, offset, payload.drop data_offset⟩

/-! ## src/parser/someip/msi_parser.rs -/

/-- Embedding of `MSIMessage` from src/parser/someip/msi_parser.rs. -/
structure MSIMessage where
  header : SomeIPHeader
  payload : List Nat
deriving DecidableEq, Repr

/-- Embedding of `MSIPacket` from src/parser/someip/msi_parser.rs. -/
structure MSIPacket where
  messages : List MSIMessage
deriving DecidableEq, Repr

/-- Loop body of `parse_msi_packet` from src/parser/someip/msi_parser.rs.
While at least 16 bytes remain: parse a header, fail when the claimed
`length` exceeds the remaining bytes, slice the embedded message, and
advance by `length` bytes.  When `length < 16`, the source's
`message_data[16..]` slice is out of bounds: that is a panic. -/
def msi_fuel : Nat → List Nat → StepRes (List MSIMessage)
  | 0, _ => .ok []
  | fuel + 1, remaining =>
    if remaining.length < 16 then .ok []
    else
      match parse_someip_header remaining with
      | .ok _ header =>
        let message_length := header.length
        if message_length > remaining.length then .err
        else if message_length < 16 then .panicked
        else
          match msi_fuel fuel (remaining.drop message_length) with
          | .ok msgs => .ok (⟨header, (remaining.take message_length).drop 16⟩ :: msgs)
          | .err => .err
          | .panicked => .panicked
      | .err => .err
      | .panicked => .panicked

/-- Loop of `parse_msi_packet` at its entry point (each iteration consumes
`message_length ≥ 16` bytes, so a fuel of `remaining.length + 1` can never
run out; the recursion is on the fuel so that the definition reduces
definitionally). -/
def msi_loop (remaining : List Nat) : StepRes (List MSIMessage) :=
  msi_fuel (remaining.length + 1) remaining

/-- Embedding of `parse_msi_packet` from src/parser/someip/msi_parser.rs (the trailing-data
branch only logs, so it has no effect on the result). -/
def parse_msi_packet (payload : List Nat) : StepRes MSIPacket :=
  match msi_loop payload with
  | .ok messages => .ok ⟨messages⟩
  | .err => .err
  | .panicked => .panicked

/-! ## src/parser/someip/session.rs -/

/-- Embedding of `SomeIPMessage` from src/parser/someip/session.rs.  The source renders the
IP addresses to `String`; the embedding keeps the underlying address bytes
(the rendering is injective, so key comparisons agree). -/
structure SomeIPMessage where
  timestamp : Nat
  header : SomeIPHeader
  payload : List Nat
  src_ip : List Nat
  dst_ip : List Nat
  src_port : Nat
  dst_port : Nat
deriving DecidableEq, Repr

/-- Embedding of `RequestResponsePair` from src/parser/someip/session.rs. -/
structure RequestResponsePair where
  request : SomeIPMessage
  response : Option SomeIPMessage
  timeout : Nat
deriving DecidableEq, Repr

/-- Embedding of `SessionManager` from src/parser/someip/session.rs. -/
structure SessionManager where
  sessions : List ((Nat × Nat × Nat) × RequestResponsePair)
  timeout : Nat
  max_pairs : Nat
  pending_responses : List (Nat × Nat × Nat)
deriving DecidableEq, Repr

/-- Embedding of `SessionManager::new` from src/parser/someip/session.rs. -/
def SessionManager.new (timeout : Nat) (max_pairs : Nat) : SessionManager :=
  ⟨[], timeout, max_pairs, []⟩

/-- Session key of a message: `(service_id, client_id, session_id)`. -/
def sessionKey (m : SomeIPMessage) : Nat × Nat × Nat :=
  (m.header.service_id, m.header.client_id, m.header.session_id)

/-- Eviction loop of `SessionManager::add_request`: pop queued keys until one
is still present in the session map, and remove that one. -/
def evictOldestLoop (queue : List (Nat × Nat × Nat))
    (sessions : List ((Nat × Nat × Nat) × RequestResponsePair)) :
    List (Nat × Nat × Nat) × List ((Nat × Nat × Nat) × RequestResponsePair) :=
  match queue with
  | [] => ([], sessions)
  | k :: rest =>
    if (alistLookup k sessions).isSome then (rest, alistRemove k sessions)
    else evictOldestLoop rest sessions

/-- Embedding of `SessionManager::add_request` from src/parser/someip/session.rs (the
source's `Result` is always `Ok`, so the new state is returned directly). -/
def SessionManager.add_request (self : SessionManager) (now : Nat)
    (message : SomeIPMessage) : SessionManager :=
  let (queue, sessions) :=
    if self.sessions.length ≥ self.max_pairs then
      evictOldestLoop self.pending_responses self.sessions
    else (self.pending_responses, self.sessions)
  let key := sessionKey message
  { self with
    sessions := alistInsert key ⟨message, none, now + self.timeout⟩ sessions,
    pending_responses := queue ++ [key] }

/-- Embedding of `SessionManager::add_response` from src/parser/someip/session.rs.  Note
that the completed pair stays in the session map (only the queue entry is
removed), exactly as in the source. -/
def SessionManager.add_response (self : SessionManager) (message : SomeIPMessage) :
    StepRes (Option RequestResponsePair × SessionManager) :=
  let key := sessionKey message
  match alistLookup key self.sessions with
  | some pair =>
    match message.header.message_type with
    | .Response =>
      let pair2 := { pair with response := some message }
      .ok (some pair2,
        { self with sessions := alistInsert key pair2 self.sessions,
                    pending_responses := self.pending_responses.erase key })
    | .Error =>
      let pair2 := { pair with response := some message }
      .ok (some pair2,
        { self with sessions := alistInsert key pair2 self.sessions,
                    pending_responses := self.pending_responses.erase key })
    | _ => .err
  | none => .ok (none, self)

/-- Embedding of `SessionManager::cleanup_expired_sessions` from src/parser/someip/session.rs. -/
def SessionManager.cleanup_expired_sessions (self : SessionManager) (now : Nat) :
    List RequestResponsePair × SessionManager :=
  let isExpired := fun (p : (Nat × Nat × Nat) × RequestResponsePair) =>
    p.2.response.isNone && decide (p.2.timeout ≤ now)
  let expired := self.sessions.filter isExpired
  ( expired.map (·.2),
    { self with
      sessions := self.sessions.filter (fun p => !(isExpired p)),
      pending_responses :=
        (expired.map (·.1)).foldl (fun q k => q.erase k) self.pending_responses } )

/-! ## src/utils/flow_control.rs -/

/-- Embedding of `TcpConnectionKey` from src/utils/flow_control.rs (IPs as byte lists, see
`SomeIPMessage`). -/
structure TcpConnectionKey where
  src_ip : List Nat
  src_port : Nat
  dst_ip : List Nat
  dst_port : Nat
deriving DecidableEq, Repr

/-- Embedding of `TcpSegment` from src/utils/flow_control.rs. -/
structure TcpSegment where
  seq_num : Nat
  data : List Nat
  timestamp : Nat
deriving DecidableEq, Repr

/-- Embedding of `TcpStream` from src/utils/flow_control.rs. -/
structure TcpStream where
  segments : List TcpSegment
  expected_seq : Nat
  window_size : Nat
  last_activity : Nat
  closed : Bool
  fin_seq : Option Nat
deriving DecidableEq, Repr

/-- Embedding of `TcpFlowController` from src/utils/flow_control.rs. -/
structure TcpFlowController where
  connections : List (TcpConnectionKey × TcpStream)
  max_connections : Nat
  segment_timeout : Nat
  connection_timeout : Nat
deriving DecidableEq, Repr

/-- Embedding of `TcpFlowController::new` from src/utils/flow_control.rs. -/
def TcpFlowController.new (max_connections segment_timeout connection_timeout : Nat) :
    TcpFlowController :=
  ⟨[], max_connections, segment_timeout, connection_timeout⟩

/-- Embedding of `TcpFlowController::cleanup_expired_connections` from src/utils/flow_control.rs. -/
def TcpFlowController.cleanup_expired_connections (self : TcpFlowController) (now : Nat) :
    TcpFlowController :=
  let keep := fun (p : TcpConnectionKey × TcpStream) =>
    !p.2.closed || decide (now - p.2.last_activity ≤ self.connection_timeout)
  { self with connections := self.connections.filter keep }

/-- Embedding of `min_by_key(last_activity)` over the connection map (Rust keeps the last
minimum; map iteration order is modelled by list order). -/
def minByLastActivity (l : List (TcpConnectionKey × TcpStream)) : Option TcpConnectionKey :=
  (l.foldl (fun acc p =>
    match acc with
    | none => some p
    | some q => if p.2.last_activity ≤ q.2.last_activity then some p else some q) none).map (·.1)

/-- Drain loop of `TcpFlowController::process_out_of_order_segments`: pop held
segments that are now in order (appending their data) or stale duplicates,
stopping at the first segment that is still ahead of `expected`. -/
def drainSegments : List TcpSegment → Nat → List Nat → List TcpSegment × Nat × List Nat
  | [], expected, acc => ([], expected, acc)
  | seg :: rest, expected, acc =>
    if seg.seq_num = expected then
      drainSegments rest (w32 (expected + seg.data.length)) (acc ++ seg.data)
    else if seg.seq_num < expected then drainSegments rest expected acc
    else (seg :: rest, expected, acc)

/-- Insertion step of the stable sort the hold-queue undergoes after an
out-of-order enqueue (`sort_by_key(seq_num)`). -/
def insertSegSorted (s : TcpSegment) : List TcpSegment → List TcpSegment
  | [] => [s]
  | q :: rest => if s.seq_num < q.seq_num then s :: q :: rest else q :: insertSegSorted s rest

/-- Stable sort of the hold-queue by sequence number. -/
def sortBySeq (l : List TcpSegment) : List TcpSegment :=
  l.foldl (fun acc s => insertSegSorted s acc) []

/-- Embedding of `TcpFlowController::process_tcp_packet` from src/utils/flow_control.rs,
with `process_out_of_order_segments` inlined at its single call site (drain,
then drop held segments older than the segment timeout).  The `entry●or_insert_with`
plus pointer-aliased mutation of the source becomes: fetch (or create) the
stream, update it, and store it back on every exit path. -/
def TcpFlowController.process_tcp_packet (self : TcpFlowController)
    (src_ip dst_ip : List Nat) (tcp : TCPPacketInfo) (payload : List Nat) (now : Nat) :
    StepRes (Option (List Nat) × TcpFlowController) :=
  let key : TcpConnectionKey := ⟨src_ip, tcp.src_port, dst_ip, tcp.dst_port⟩
  let self1 := self.cleanup_expired_connections now
  let self2 :=
    if self1.connections.length ≥ self1.max_connections then
      match minByLastActivity self1.connections with
      | some oldest => { self1 with connections := alistRemove oldest self1.connections }
      | none => self1
    else self1
  let stream0 := (alistLookup key self2.connections).getD
    ⟨[], tcp.seq_num, tcp.window_size, now, false, none⟩
  let store := fun (st : TcpStream) =>
    { self2 with connections := alistInsert key st self2.connections }
  let st1 := { stream0 with last_activity := now, window_size := tcp.window_size }
  let st2 := if tcp.flags.syn then { st1 with expected_seq := w32 (tcp.seq_num + 1) } else st1
  if tcp.flags.syn ∧ payload = [] then .ok (none, store st2)
  else
    let st3 :=
      if tcp.flags.fin then
        { st2 with fin_seq := some (w32 (tcp.seq_num + payload.length)), closed := true }
      else st2
    if tcp.flags.rst then .ok (none, store { st3 with closed := true })
    else if payload = [] then .ok (none, store st3)
    else if tcp.seq_num = st3.expected_seq then
      let afterSeq := w32 (st3.expected_seq + payload.length)
      let (segs, expected, reassembled) := drainSegments st3.segments afterSeq payload
      let segs2 := segs.filter (fun s => now - s.timestamp ≤ self.segment_timeout)
      .ok (some reassembled, store { st3 with segments := segs2, expected_seq := expected })
    else if st3.expected_seq < tcp.seq_num then
      .ok (none, store { st3 with segments := sortBySeq (st3.segments ++ [⟨tcp.seq_num, payload, now⟩]) })
    else .ok (none, store st3)

/-! ## src/main.rs (orchestrator) -/

/-- Embedding of `RawPacket` from src/parser/pcap_reader.rs. -/
structure RawPacket where
  timestamp : Nat
  data : List Nat
deriving DecidableEq, Repr

/-- Embedding of `HashSet::insert` on the duplicate-free port list. -/
def insertPort (p : Nat) (l : List Nat) : List Nat :=
  if p ∈ l then l else l ++ [p]

/-- Per-option body of the `for option in &sd_packet.options` loop of
`learn_ports_from_sd` from src/main.rs. -/
def learnStep (ports : List Nat) (option : SDOption) : List Nat :=
  match option with
  | .Ipv4Endpoint o => insertPort o.port ports
  | .Ipv4Multicast o => insertPort o.port ports
  | .Ipv4SDEndpoint o => insertPort o.port ports
  | .Ipv6Endpoint o => insertPort o.port ports
  | .Ipv6Multicast o => insertPort o.port ports
  | .Ipv6SDEndpoint o => insertPort o.port ports
  | _ => ports

/-- Embedding of `learn_ports_from_sd` from src/main.rs. -/
def learn_ports_from_sd (sd_packet : SDPacket) (known_ports : List Nat) : List Nat :=
  sd_packet.options.foldl learnStep known_ports

/-- Specification-side observer: the port carried by an endpoint-style SD
option (`Endpoint` / `Multicast` / `SD-Endpoint`, both IP families). -/
def optionPort : SDOption → Option Nat
  | .Ipv4Endpoint o => some o.port
  | .Ipv4Multicast o => some o.port
  | .Ipv4SDEndpoint o => some o.port
  | .Ipv6Endpoint o => some o.port
  | .Ipv6Multicast o => some o.port
  | .Ipv6SDEndpoint o => some o.port
  | _ => none

/-- Specification-side observer: all endpoint-style ports of an SD packet. -/
def sdOptionPorts (sd : SDPacket) : List Nat :=
  sd.options.filterMap optionPort

/-- Embedding of `create_someip_message` from src/main.rs. -/
def create_someip_message (timestamp : Nat) (src_ip dst_ip : List Nat)
    (src_port dst_port : Nat) (header : SomeIPHeader) (payload : List Nat) :
    SomeIPMessage :=
  ⟨timestamp, header, payload, src_ip, dst_ip, src_port, dst_port⟩

/-- Embedding of `handle_someip_message` from src/main.rs. -/
def handle_someip_message (msg : SomeIPMessage) (session_manager : SessionManager)
    (messages : List SomeIPMessage) (now : Nat) :
    StepRes (SessionManager × List SomeIPMessage) :=
  match msg.header.message_type with
  | .Request => .ok (session_manager.add_request now msg, messages)
  | .RequestNoReturn => .ok (session_manager.add_request now msg, messages)
  | .Response =>
    match session_manager.add_response msg with
    | .ok (some pair, sm2) => .ok (sm2, messages ++ [pair.request, msg])
    | .ok (none, sm2) => .ok (sm2, messages)
    | .err => .err
    | .panicked => .panicked
  | .Error =>
    match session_manager.add_response msg with
    | .ok (some pair, sm2) => .ok (sm2, messages ++ [pair.request, msg])
    | .ok (none, sm2) => .ok (sm2, messages)
    | .err => .err
    | .panicked => .panicked
  | _ => .ok (session_manager, messages ++ [msg])

/-- Orchestrator state owned by `main`: the known-ports set, the session
manager, the TP reassembler, the TCP flow controller, and the collected
output messages.  `sdLog` is a ghost observation with no source counterpart:
it records every SD packet the orchestrator parsed, so that specifications
can quantify over "SD packets processed so far"; no code path reads it. -/
structure OrchState where
  known_ports : List Nat
  session_manager : SessionManager
  tp : TPParser
  tcp_flow : TcpFlowController
  messages : List SomeIPMessage
  sdLog : List SDPacket
deriving DecidableEq, Repr

/-- Initial orchestrator state built in `main` (session capacity 10000, at
most 100 TCP connections, 30-second TCP segment timeout, known ports seeded
with the SD port). -/
def initOrchState (sd_port request_timeout tp_timeout tcp_timeout : Nat) : OrchState :=
  ⟨[sd_port], SessionManager.new request_timeout 10000, TPParser.new tp_timeout,
   TcpFlowController.new 100 30 tcp_timeout, [], []⟩

/-- MSI fan-out inside `process_raw_packet`: route every embedded message
through `handle_someip_message` in order. -/
def handle_msi_messages (msgs : List MSIMessage) (ts : Nat) (src_ip dst_ip : List Nat)
    (src_port dst_port : Nat) (session_manager : SessionManager)
    (messages : List SomeIPMessage) (now : Nat) :
    StepRes (SessionManager × List SomeIPMessage) :=
  match msgs with
  | [] => .ok (session_manager, messages)
  | m :: rest =>
    let msg := create_someip_message ts src_ip dst_ip src_port dst_port m.header m.payload
    match handle_someip_message msg session_manager messages now with
    | .ok (sm2, msgs2) => handle_msi_messages rest ts src_ip dst_ip src_port dst_port sm2 msgs2 now
    | .err => .err
    | .panicked => .panicked

/-- SomeIP framing loop over a reassembled TCP chunk inside
`process_raw_packet`: while 16 bytes remain, parse a header, stop when the
full `16 + length` message is not available, otherwise slice it out, route
it, and advance. -/
def tcp_someip_fuel (ts : Nat) (src_ip dst_ip : List Nat) (src_port dst_port : Nat)
    (now : Nat) : Nat → List Nat → SessionManager → List SomeIPMessage →
    StepRes (SessionManager × List SomeIPMessage)
  | 0, _, session_manager, messages => .ok (session_manager, messages)
  | fuel + 1, data, session_manager, messages =>
    if data.length < 16 then .ok (session_manager, messages)
    else
      match parse_someip_header data with
      | .ok _ header =>
        let msg_len := 16 + header.length
        if data.length < msg_len then .ok (session_manager, messages)
        else
          let payload := (data.take msg_len).drop 16
          let msg := create_someip_message ts src_ip dst_ip src_port dst_port header payload
          match handle_someip_message msg session_manager messages now with
          | .ok (sm2, msgs2) =>
            tcp_someip_fuel ts src_ip dst_ip src_port dst_port now fuel
              (data.drop msg_len) sm2 msgs2
          | .err => .err
          | .panicked => .panicked
      | .err => .err
      | .panicked => .panicked

/-- SomeIP framing loop over a reassembled TCP chunk at its entry point (each
iteration consumes `16 + length ≥ 16` bytes, so a fuel of `data.length + 1`
can never run out; the recursion is on the fuel so that the definition
reduces definitionally). -/
def tcp_someip_loop (data : List Nat) (ts : Nat) (src_ip dst_ip : List Nat)
    (src_port dst_port : Nat) (session_manager : SessionManager)
    (messages : List SomeIPMessage) (now : Nat) :
    StepRes (SessionManager × List SomeIPMessage) :=
  tcp_someip_fuel ts src_ip dst_ip src_port dst_port now (data.length + 1)
    data session_manager messages

/-- TP / MSI / plain sub-classification of the UDP branch of
`process_raw_packet` from src/main.rs (the part after SD handling, acting on
the state `st2` that already carries the learned ports).  The plain path's
`udp.payload[16..16 + header.length]` slice panics whenever the datagram does
not carry `header.length` bytes after the 16-byte header. -/
def process_udp_dispatch (ts : Nat) (src_ip dst_ip : List Nat)
    (udp : UDPPacketInfo) (header : SomeIPHeader) (st2 : OrchState) (now : Nat) :
    StepRes OrchState :=
  if bitSet header.message_type.as_u8 0x20 then
    match parse_tp_segment (udp.payload.drop 16) header with
    | .err => .err
    | .panicked => .panicked
    | .ok segment =>
      match st2.tp.process_segment now segment with
      | .err => .err
      | .panicked => .panicked
      | .ok (reassembled, tp2) =>
        let st3 := { st2 with tp := tp2 }
        match reassembled with
        | some r =>
          let msg := create_someip_message ts src_ip dst_ip udp.src_port udp.dst_port
            r.header r.payload
          match handle_someip_message msg st3.session_manager st3.messages now with
          | .ok (sm2, msgs2) =>
            .ok { st3 with session_manager := sm2, messages := msgs2 }
          | .err => .err
          | .panicked => .panicked
        | none => .ok st3
  else if header.service_id = 0xFFFF ∧ header.method_id = 0x8101 then
    match parse_msi_packet (udp.payload.drop 16) with
    | .err => .err
    | .panicked => .panicked
    | .ok msi =>
      match handle_msi_messages msi.messages ts src_ip dst_ip udp.src_port udp.dst_port
          st2.session_manager st2.messages now with
      | .ok (sm2, msgs2) => .ok { st2 with session_manager := sm2, messages := msgs2 }
      | .err => .err
      | .panicked => .panicked
  else
    if 16 + header.length ≤ udp.payload.length then
      let payload := (udp.payload.take (16 + header.length)).drop 16
      let msg := create_someip_message ts src_ip dst_ip udp.src_port udp.dst_port
        header payload
      match handle_someip_message msg st2.session_manager st2.messages now with
      | .ok (sm2, msgs2) => .ok { st2 with session_manager := sm2, messages := msgs2 }
      | .err => .err
      | .panicked => .panicked
    else .panicked

/-- UDP branch of `process_raw_packet` from src/main.rs: known-port gating,
SD handling and port learning, then `process_udp_dispatch`. -/
def process_udp_packet (sd_port : Nat) (ts : Nat) (src_ip dst_ip : List Nat)
    (udp : UDPPacketInfo) (st : OrchState) (now : Nat) : StepRes OrchState :=
  if ¬(udp.src_port ∈ st.known_ports ∨ udp.dst_port ∈ st.known_ports) then .ok st
  else if udp.payload.length < 16 then .ok st
  else
    match parse_someip_header udp.payload with
    | .err => .err
    | .panicked => .panicked
    | .ok _ header =>
      let sdStep : StepRes (List Nat × List SDPacket) :=
        if (udp.src_port = sd_port ∨ udp.dst_port = sd_port) ∧
            header.service_id = 0xFFFF ∧ header.method_id = 0x8100 then
          match parse_sd_packet header (udp.payload.drop 16) with
          | .ok _ sd => .ok (learn_ports_from_sd sd st.known_ports, st.sdLog ++ [sd])
          | .err => .err
          | .panicked => .panicked
        else .ok (st.known_ports, st.sdLog)
      match sdStep with
      | .err => .err
      | .panicked => .panicked
      | .ok (known2, sdLog2) =>
        process_udp_dispatch ts src_ip dst_ip udp header
          { st with known_ports := known2, sdLog := sdLog2 } now

/-- TCP branch of `process_raw_packet` from src/main.rs: known-port gating,
flow-control reassembly, then SomeIP framing over the emitted chunk. -/
def process_tcp_branch (ts : Nat) (src_ip dst_ip : List Nat) (tcp : TCPPacketInfo)
    (st : OrchState) (now : Nat) : StepRes OrchState :=
  if ¬(tcp.src_port ∈ st.known_ports ∨ tcp.dst_port ∈ st.known_ports) then .ok st
  else
    match st.tcp_flow.process_tcp_packet src_ip dst_ip tcp tcp.payload now with
    | .err => .err
    | .panicked => .panicked
    | .ok (data, fc2) =>
      let st2 := { st with tcp_flow := fc2 }
      match data with
      | some chunk =>
        match tcp_someip_loop chunk ts src_ip dst_ip tcp.src_port tcp.dst_port
            st2.session_manager st2.messages now with
        | .ok (sm2, msgs2) => .ok { st2 with session_manager := sm2, messages := msgs2 }
        | .err => .err
        | .panicked => .panicked
      | none => .ok st2

/-- Embedding of `process_raw_packet` from src/main.rs.  Every `Instant::now()` the source
takes while processing this packet is modelled by the packet timestamp. -/
def process_raw_packet (sd_port : Nat) (target_vlan : Option Nat) (raw_packet : RawPacket)
    (st : OrchState) : StepRes OrchState :=
  let now := raw_packet.timestamp
  match parse_link_layer raw_packet.data with
  | .err => .err
  | .panicked => .panicked
  | .ok _ link_layer =>
    let vlan_id :=
      match link_layer with
      | .Ethernet eth => eth.vlan.map (fun v => v.tci.land 0x0FFF)
      | _ => none
    let vlanMismatch : Bool :=
      match target_vlan, vlan_id with
      | some target, some actual => actual != target
      | _, _ => false
    if vlanMismatch then .ok st
    else
      let netInput :=
        match link_layer with
        | .Ethernet eth => (eth.payload, eth.ethertype)
        | .SLL sll => (sll.payload, sll.protocol)
      match parse_network_layer netInput.2 netInput.1 with
      | .err => .err
      | .panicked => .panicked
      | .ok _ network_layer =>
        let route :=
          match network_layer with
          | .IPv4 v4 => (v4.src_ip, v4.dst_ip, v4.payload, v4.protocol)
          | .IPv6 v6 => (v6.src_ip, v6.dst_ip, v6.payload, v6.next_header)
        match parse_transport_layer route.2.2.2 route.2.2.1 with
        | .err => .err
        | .panicked => .panicked
        | .ok _ transport_layer =>
          match transport_layer with
          | .UDP udp => process_udp_packet sd_port raw_packet.timestamp route.1 route.2.1 udp st now
          | .TCP tcp => process_tcp_branch raw_packet.timestamp route.1 route.2.1 tcp st now

/-- The packet-consuming loop of `main`: `process_raw_packet(...)?` for each
received frame in order — an `Err` (or a panic) ends the run. -/
def processPackets (sd_port : Nat) (target_vlan : Option Nat) :
    List RawPacket → OrchState → StepRes OrchState
  | [], st => .ok st
  | p :: rest, st =>
    match process_raw_packet sd_port target_vlan p st with
    | .ok st2 => processPackets sd_port target_vlan rest st2
    | .err => .err
    | .panicked => .panicked

/-! ## Concrete wire inputs used by the claim theorems and witnesses -/

/-- Big-endian 16-bit byte rendering. -/
def u16be (n : Nat) : List Nat := [n / 256 % 256, n % 256]

/-- Big-endian 32-bit byte rendering. -/
def u32be (n : Nat) : List Nat :=
  [n / 16777216 % 256, n / 65536 % 256, n / 256 % 256, n % 256]

/-- A full Ethernet/IPv4/UDP frame around the given UDP payload
(192.168.0.1 → 192.168.0.2, no VLAN). -/
def mkUdpFrame (srcPort dstPort : Nat) (udpPayload : List Nat) : List Nat :=
  [2, 2, 2, 2, 2, 2, 1, 1, 1, 1, 1, 1, 0x08, 0x00] ++
  [0x45, 0] ++ u16be (28 + udpPayload.length) ++
  [0, 0, 0, 0, 64, 17, 0, 0, 192, 168, 0, 1, 192, 168, 0, 2] ++
  u16be srcPort ++ u16be dstPort ++ u16be (8 + udpPayload.length) ++ [0, 0] ++ udpPayload

/-- A 16-byte SomeIP header rendering (protocol version 1, interface
version 1, return code 0). -/
def mkSomeipHeader (service method length client session ptype : Nat) : List Nat :=
  u16be service ++ u16be method ++ u32be length ++ u16be client ++ u16be session ++
  [1, 1, ptype, 0]

/-- Plain Notification whose UDP datagram carries the header, the
`length − 8 = 2` payload bytes, and 8 extra trailing bytes. -/
def pktNotifPadded : RawPacket :=
  ⟨1, mkUdpFrame 30490 40000
    (mkSomeipHeader 0x1234 1 10 1 1 0x02 ++ [0xAA, 0xBB] ++ List.replicate 8 0)⟩

/-- Plain Notification whose UDP datagram carries exactly the 16-byte header
followed by the `length − 8 = 2` payload bytes. -/
def pktNotifExact : RawPacket :=
  ⟨1, mkUdpFrame 30490 40000 (mkSomeipHeader 0x1234 1 10 1 1 0x02 ++ [0xAA, 0xBB])⟩

/-- A frame that fails link-layer decoding (empty capture buffer). -/
def pktBad : RawPacket := ⟨0, []⟩

/-- SD announcement on the SD port carrying one IPv4 Endpoint option with
port 50001 (padded so the plain-path slice stays in bounds). -/
def pktSd : RawPacket :=
  ⟨2, mkUdpFrame 30490 40000
    (mkSomeipHeader 0xFFFF 0x8100 31 0 0 0x02 ++
     ([0xC0, 0, 0, 0] ++ u32be 0 ++ u32be 11 ++
      (u16be 11 ++ [0x04, 0x00] ++ [10, 0, 0, 1, 0x11] ++ u16be 50001)) ++
     List.replicate 8 0)⟩

/-- Specification-side well-formedness of an MSI container: walking it the way
`parse_msi_packet` does never meets an embedded header whose `length` field is
below 16 while 16 or more bytes remain. -/
def msiWellFormedFuel : Nat → List Nat → Bool
  | 0, _ => true
  | fuel + 1, remaining =>
    if remaining.length < 16 then true
    else
      match parse_someip_header remaining with
      | .ok _ header =>
        if header.length > remaining.length then true
        else if header.length < 16 then false
        else msiWellFormedFuel fuel (remaining.drop header.length)
      | .err => true
      | .panicked => false

/-- Well-formedness of an MSI container at its entry point (fuel as in
`msi_loop`). -/
def msiWellFormed (remaining : List Nat) : Bool :=
  msiWellFormedFuel (remaining.length + 1) remaining

/-- Test driver: feed a list of TP segments to the reassembler at clock 0,
collecting each emission. -/
def tpRun (s : TPParser) : List TPSegment → StepRes (List (Option ReassembledMessage) × TPParser)
  | [] => .ok ([], s)
  | seg :: rest =>
    match s.process_segment 0 seg with
    | .ok (m, s2) =>
      match tpRun s2 rest with
      | .ok (ms, s3) => .ok (m :: ms, s3)
      | .err => .err
      | .panicked => .panicked
    | .err => .err
    | .panicked => .panicked

/-- SomeIP header used by the TP reassembly scenario (key
`(0x1234, 0x0001, 0x0002)`), with the given `length` field. -/
def tpHdr (length : Nat) : SomeIPHeader :=
  ⟨0x1234, 1, length, 1, 2, 1, 1, .Notification, .Ok⟩

/-- Messages accumulated in a successful run (empty when the run aborted). -/
def okMessages (r : StepRes OrchState) : List SomeIPMessage :=
  match r with
  | .ok st => st.messages
  | .err => []
  | .panicked => []

/-- Invariant tying the known-ports set to the SD history: the configured SD
port is known, and every endpoint-style port of every SD packet processed so
far is known. -/
def portsInv (sd_port : Nat) (st : OrchState) : Prop :=
  sd_port ∈ st.known_ports ∧
  ∀ sd ∈ st.sdLog, ∀ p, p ∈ sdOptionPorts sd → p ∈ st.known_ports

/-- Keys of the TP reassembler's pending map. -/
def tpKeys (s : TPParser) : List (Nat × Nat × Nat) :=
  s.pending_messages.map (·.1)

/-- Orchestrator state after the SD announcement `pktSd`. -/
def stAfterSd : OrchState :=
  match processPackets 30490 none [pktSd] (initOrchState 30490 5 30 60) with
  | .ok st => st
  | .err => initOrchState 30490 5 30 60
  | .panicked => initOrchState 30490 5 30 60

/-- Orchestrator state after `pktSd` and then `pktNotifPadded`. -/
def stAfterSd2 : OrchState :=
  match processPackets 30490 none [pktNotifPadded] stAfterSd with
  | .ok st => st
  | .err => stAfterSd
  | .panicked => stAfterSd

/-- The SD packet recorded while processing `pktSd` (head of the ghost log). -/
def sdSeen : SDPacket :=
  (stAfterSd.sdLog.getD 0
    ⟨⟨0, 0, 0, 0, 0, 0, 0, .Request, .Ok⟩, ⟨false, false, false⟩, [], []⟩)

/-- TP key of a segment: `(service_id, client_id, session_id)`. -/
def segKey (seg : TPSegment) : Nat × Nat × Nat :=
  (seg.header.service_id, seg.header.client_id, seg.header.session_id)

/-- Reassembler state holding one pending message for key (0x1234, 1, 2)
awaiting its final fragment at offset 2 (total size 5). -/
def tpWPre : TPParser :=
  ⟨[((0x1234, 1, 2), ⟨tpHdr 56, [(0, [5, 5])], 2, some 5, 0⟩)], 30⟩

/-- Final in-order fragment for `tpWPre` (offset 2, 3 bytes, is_last). -/
def segWLast : TPSegment := ⟨tpHdr 56, false, true, 2, [6, 6, 6]⟩

/-- Concrete request message with session key `(0x1234, 1, i)`. -/
def mkReq (i : Nat) : SomeIPMessage :=
  ⟨0, ⟨0x1234, 1, 8, 1, i, 1, 1, .Request, .Ok⟩, [], [10, 0, 0, 1], [10, 0, 0, 2], 30490, 40000⟩

/-- Well-formed MSI container: one embedded message of total size 20
(header plus 4 payload bytes). -/
def msiGood : List Nat := mkSomeipHeader 0x1234 1 20 1 1 2 ++ [9, 9, 9, 9]

/-- Connection key of a TCP packet (source-ip, source-port, dest-ip,
dest-port), as built at the top of `process_tcp_packet`. -/
def tcpKeyOf (src dst : List Nat) (tcp : TCPPacketInfo) : TcpConnectionKey :=
  ⟨src, tcp.src_port, dst, tcp.dst_port⟩

/-- All-clear TCP flags. -/
def flagsNone : TCPFlags := ⟨false, false, false, false, false, false, false, false, false⟩

/-- In-order data segment: 40 bytes at sequence 1000. -/
def tcpC7 : TCPPacketInfo :=
  ⟨40000, 30490, 1000, 0, 5, 0, flagsNone, 512, 0, 0, [], List.replicate 40 1⟩

/-- Established stream expecting sequence 1000 and holding an out-of-order
segment at 1040. -/
def streamC7 : TcpStream := ⟨[⟨1040, List.replicate 40 2, 5⟩], 1000, 512, 5, false, none⟩

/-- Controller with the single stream `streamC7`. -/
def fcC7 : TcpFlowController :=
  ⟨[(⟨[10, 0, 0, 1], 40000, [10, 0, 0, 2], 30490⟩, streamC7)], 100, 30, 60⟩

/-- Controller state after the in-order segment: hold-queue drained,
expected sequence 1080. -/
def fcC7after : TcpFlowController :=
  ⟨[(⟨[10, 0, 0, 1], 40000, [10, 0, 0, 2], 30490⟩, ⟨[], 1080, 512, 5, false, none⟩)], 100, 30, 60⟩

/-! ## Claim theorems -/

/-- C1: the spec claims a decode failure at any layer is non-fatal — the frame
is dropped and every subsequent frame is still processed.  In the code,
`process_raw_packet(...)?` inside the receive loop of `main` propagates the
error, so the run aborts: the same valid Notification frame that alone
produces one output message produces nothing when it follows a frame whose
link-layer decoding fails, because the whole run ends in an error. -/
theorem per_packet_decode_error_aborts_run :
    processPackets 30490 none [pktBad, pktNotifPadded] (initOrchState 30490 5 30 60) = .err ∧
    (okMessages (processPackets 30490 none [pktNotifPadded] (initOrchState 30490 5 30 60))).length = 1 := by
  constructor
  · rfl
  · rfl

/-- C2: the spec claims the plain UDP path extracts exactly
`header.length − 8` payload bytes and succeeds on a datagram carrying the
16-byte header plus `length − 8` bytes.  The code slices
`udp.payload[16..16 + header.length]`: on the exact datagram (header plus the
2 = `length − 8` payload bytes for `length = 10`) the slice is out of bounds
and the run panics, and on a padded datagram the emitted payload has
`header.length = 10` bytes, not `length − 8 = 2`. -/
theorem plain_udp_payload_slice_is_length_not_length_minus_8 :
    processPackets 30490 none [pktNotifExact] (initOrchState 30490 5 30 60) = .panicked ∧
    (okMessages (processPackets 30490 none [pktNotifPadded] (initOrchState 30490 5 30 60))).map
      (fun m => m.payload.length) = [10] ∧
    (okMessages (processPackets 30490 none [pktNotifPadded] (initOrchState 30490 5 30 60))).map
      (fun m => m.header.length) = [10] := by
  refine ⟨rfl, rfl, rfl⟩

/-- TCP segment with data offset 5 and only the SYN bit (0x0002) set in the
16-bit data-offset/flags word (`0x5002`). -/
def synOnlySegment : List Nat :=
  u16be 1234 ++ u16be 80 ++ u32be 0 ++ u32be 0 ++ [0x50, 0x02] ++ [0, 0, 0, 0, 0, 0]

/-- C3: the spec claims `parse_tcp` decodes the nine flags with masks
FIN=0x0001 … NS=0x0100, so an input whose flags word has only the SYN bit
set should decode to `syn = true` and every other flag false.  The code
shifts every mask down one bit and masks `rst`/`syn`/`fin` with `0x0000`:
on the SYN-only segment it decodes `ack = true` and `syn = false`. -/
theorem parse_tcp_syn_only_segment_misdecoded :
    parse_tcp synOnlySegment =
      .ok [] (.TCP ⟨1234, 80, 0, 0, 5, 0,
        ⟨false, false, false, false, true, false, false, false, false⟩,
        0, 0, 0, [], []⟩) := by
  rfl

/-- C5 first scenario: offsets 0 (first, 16 bytes), 32 (last, 16 bytes),
16 (middle, 16 bytes) for key (0x1234, 0x0001, 0x0002), first-fragment
header `length = 56`. -/
def tpScenario56 : List TPSegment :=
  [⟨tpHdr 56, true, false, 0, List.replicate 16 0xA⟩,
   ⟨tpHdr 56, false, true, 32, List.replicate 16 0xC⟩,
   ⟨tpHdr 56, false, false, 16, List.replicate 16 0xB⟩]

/-- C5 second scenario: same fragments except the first-fragment header
carries `length = 100`, separating the heuristic `length − 8` total from the
`offset + len` total the claim says the last fragment must set. -/
def tpScenario100 : List TPSegment :=
  [⟨tpHdr 100, true, false, 0, List.replicate 16 0xA⟩,
   ⟨tpHdr 100, false, true, 32, List.replicate 16 0xC⟩]

/-- C5: the spec claims every admitted `is_last=1` fragment — in order or out
of order — sets `total_size = offset + len`, and that the 0/32/16 scenario
yields one reassembled 48-byte message.  In the code an out-of-order last
fragment is only cached: after the `length = 100` run `total_size` is still
the heuristic 92 (not 32 + 16 = 48), and the full 0/32/16 scenario emits
nothing at all — the pending entry survives with `expected_offset = 32`
because cached fragments never advance the in-order cursor. -/
theorem out_of_order_last_fragment_never_sets_total_size :
    tpRun (TPParser.new 30) tpScenario56 =
      .ok ([none, none, none],
        ⟨[((0x1234, 1, 2),
           ⟨tpHdr 56,
            [(0, List.replicate 16 0xA), (32, List.replicate 16 0xC),
             (16, List.replicate 16 0xB)],
            32, some 48, 0⟩)], 30⟩) ∧
    tpRun (TPParser.new 30) tpScenario100 =
      .ok ([none, none],
        ⟨[((0x1234, 1, 2),
           ⟨tpHdr 100,
            [(0, List.replicate 16 0xA), (32, List.replicate 16 0xC)],
            16, some 92, 0⟩)], 30⟩) := by
  refine ⟨rfl, rfl⟩

/-- C4 counterexample: a fragment with `is_first = 1` and `is_last = 1` does
emit immediately, but the code inserts a pending entry for its key before
returning, so pending state is left allocated — refuting both "leaves no
pending state allocated for its key" and "whenever process_segment returns a
reassembled message the pending state for that key is removed". -/
theorem single_fragment_message_leaves_pending_state :
    (TPParser.new 30).process_segment 0 ⟨tpHdr 56, true, true, 0, [1, 2, 3]⟩ =
      .ok (some ⟨tpHdr 56, [1, 2, 3]⟩,
        ⟨[((0x1234, 1, 2), ⟨tpHdr 56, [(0, [1, 2, 3])], 3, some 3, 0⟩)], 30⟩) ∧
    (alistLookup (0x1234, 1, 2)
      [((0x1234, 1, 2), (⟨tpHdr 56, [(0, [1, 2, 3])], 3, some 3, 0⟩ : PendingMessage))]).isSome = true := by
  refine ⟨rfl, rfl⟩

/-- A 20-byte IPv4 header whose `total_length` field (100) exceeds the bytes
present (nothing follows the fixed header). -/
def shortTotalLengthIpv4 : List Nat :=
  [0x45, 0, 0, 100, 0, 0, 0, 0, 64, 17, 0, 0, 10, 0, 0, 1, 10, 0, 0, 2]

/-- TCP segment with `data_offset = 4` (< 5) followed by 252 filler bytes:
the `u8` computation `data_offset*4 - 20` wraps to 252, which the parser then
happily consumes as "options". -/
def lowDataOffsetTcp : List Nat :=
  u16be 1 ++ u16be 2 ++ u32be 0 ++ u32be 0 ++ [0x40, 0x00] ++ [0, 0, 0, 0, 0, 0] ++
  List.replicate 252 7

set_option maxRecDepth 4096 in
/-- C9: the spec claims the layer decoders return a decode error rather than
panicking on inconsistent length fields — in particular `parse_ipv4` on a
buffer shorter than its `total_length` and `parse_tcp` on `data_offset < 5`
both return errors.  In the code `parse_ipv4` panics (out-of-bounds payload
slice), and `parse_tcp` with `data_offset = 4` wraps `data_offset*4 - 20` to
252 and succeeds, consuming 252 garbage "option" bytes instead of erring
(with debug overflow checks the subtraction would panic instead). -/
theorem ipv4_overlong_total_length_panics_and_low_data_offset_accepted :
    parse_ipv4 shortTotalLengthIpv4 = .panicked ∧
    parse_tcp lowDataOffsetTcp =
      .ok [] (.TCP ⟨1, 2, 0, 0, 4, 0,
        ⟨false, false, false, false, false, false, false, false, false⟩,
        0, 0, 0, List.replicate 252 7, []⟩) := by
  refine ⟨rfl, rfl⟩

/-- C10 counterexample: a 16-byte MSI container whose embedded header has
`length = 0` (< 16) drives `message_data[16..]` out of bounds — the walk
panics instead of returning `Ok` or `Err`. -/
theorem msi_embedded_length_below_16_panics :
    parse_msi_packet (List.replicate 16 0) = .panicked := by
  rfl

theorem mem_insertPort_self (p : Nat) (l : List Nat) : p ∈ insertPort p l := by
  unfold insertPort
  split
  · assumption
  · simp

theorem mem_insertPort_of_mem {q : Nat} {l : List Nat} (p : Nat) (h : q ∈ l) :
    q ∈ insertPort p l := by
  unfold insertPort
  split
  · exact h
  · simp [h]

theorem subset_learnStep (ports : List Nat) (o : SDOption) : ports ⊆ learnStep ports o := by
  cases o <;> intro q hq <;> first
    | exact mem_insertPort_of_mem _ hq
    | exact hq

theorem subset_foldl_learnStep (opts : List SDOption) :
    ∀ ports : List Nat, ports ⊆ opts.foldl learnStep ports := by
  induction opts with
  | nil => intro ports; exact fun q hq => hq
  | cons o rest ih =>
    intro ports q hq
    rw [List.foldl_cons]
    exact ih _ (subset_learnStep ports o hq)

theorem mem_learnStep_of_optionPort (ports : List Nat) (o : SDOption) (p : Nat)
    (h : optionPort o = some p) : p ∈ learnStep ports o := by
  cases o <;> simp [optionPort] at h <;> (subst h; exact mem_insertPort_self _ _)

theorem optionPort_mem_foldl (opts : List SDOption) :
    ∀ (ports : List Nat) (o : SDOption) (p : Nat), o ∈ opts → optionPort o = some p →
      p ∈ opts.foldl learnStep ports := by
  induction opts with
  | nil => intro _ _ _ h; cases h
  | cons o2 rest ih =>
    intro ports o p hmem hport
    rw [List.foldl_cons]
    rcases List.mem_cons.mp hmem with h | h
    · subst h
      exact subset_foldl_learnStep rest _ (mem_learnStep_of_optionPort ports o p hport)
    · exact ih _ o p h hport

theorem learn_contains_option_ports (sd : SDPacket) (known : List Nat) (p : Nat)
    (hp : p ∈ sdOptionPorts sd) : p ∈ learn_ports_from_sd sd known := by
  unfold sdOptionPorts at hp
  rw [List.mem_filterMap] at hp
  obtain ⟨o, ho, hport⟩ := hp
  exact optionPort_mem_foldl sd.options known o p ho hport

theorem dispatch_known_sdLog (ts : Nat) (sip dip : List Nat) (udp : UDPPacketInfo)
    (header : SomeIPHeader) (st2 : OrchState) (now : Nat) (st3 : OrchState)
    (h : process_udp_dispatch ts sip dip udp header st2 now = .ok st3) :
    st3.known_ports = st2.known_ports ∧ st3.sdLog = st2.sdLog := by
  unfold process_udp_dispatch at h
  split at h
  · split at h
    · cases h
    · cases h
    · split at h
      · cases h
      · cases h
      · -- process_segment ok
        simp only [] at h
        split at h
        · -- reassembled = some r
          rename_i r heq
          revert h
          cases handle_someip_message
              (create_someip_message ts sip dip udp.src_port udp.dst_port r.header r.payload)
              st2.session_manager st2.messages now with
          | ok val =>
            obtain ⟨sm2, msgs2⟩ := val
            intro h
            cases h
            exact ⟨rfl, rfl⟩
          | err => intro h; cases h
          | panicked => intro h; cases h
        · cases h
          exact ⟨rfl, rfl⟩
  · split at h
    · split at h
      · cases h
      · cases h
      · revert h
        cases handle_msi_messages _ ts sip dip udp.src_port udp.dst_port
            st2.session_manager st2.messages now with
        | ok val =>
          obtain ⟨sm2, msgs2⟩ := val
          intro h
          cases h
          exact ⟨rfl, rfl⟩
        | err => intro h; cases h
        | panicked => intro h; cases h
    · split at h
      · simp only [] at h
        revert h
        cases handle_someip_message _ st2.session_manager st2.messages now with
        | ok val =>
          obtain ⟨sm2, msgs2⟩ := val
          intro h
          cases h
          exact ⟨rfl, rfl⟩
        | err => intro h; cases h
        | panicked => intro h; cases h
      · cases h
theorem process_udp_known_sdLog (sp ts : Nat) (sip dip : List Nat) (udp : UDPPacketInfo)
    (st : OrchState) (now : Nat) (st2 : OrchState)
    (h : process_udp_packet sp ts sip dip udp st now = .ok st2) :
    (st2.known_ports = st.known_ports ∧ st2.sdLog = st.sdLog) ∨
    (∃ sd, st2.known_ports = learn_ports_from_sd sd st.known_ports ∧
      st2.sdLog = st.sdLog ++ [sd]) := by
  unfold process_udp_packet at h
  split at h
  · cases h; left; exact ⟨rfl, rfl⟩
  · split at h
    · cases h; left; exact ⟨rfl, rfl⟩
    · split at h
      · cases h
      · cases h
      · split at h
        · split at h
          · rename_i sd hsd
            have hd := dispatch_known_sdLog _ _ _ _ _ _ _ _ h
            right
            refine ⟨sd, ?_, ?_⟩
            · rw [hd.1]
            · rw [hd.2]
          · cases h
          · cases h
        · have hd := dispatch_known_sdLog _ _ _ _ _ _ _ _ h
          left
          exact ⟨hd.1, hd.2⟩

theorem process_tcp_known_sdLog (ts : Nat) (sip dip : List Nat) (tcp : TCPPacketInfo)
    (st : OrchState) (now : Nat) (st2 : OrchState)
    (h : process_tcp_branch ts sip dip tcp st now = .ok st2) :
    st2.known_ports = st.known_ports ∧ st2.sdLog = st.sdLog := by
  unfold process_tcp_branch at h
  split at h
  · cases h; exact ⟨rfl, rfl⟩
  · split at h
    · cases h
    · cases h
    · simp only [] at h
      split at h
      · rename_i chunk heq
        revert h
        cases tcp_someip_loop chunk ts sip dip tcp.src_port tcp.dst_port
            st.session_manager st.messages now with
        | ok val =>
          obtain ⟨sm2, msgs2⟩ := val
          intro h
          cases h
          exact ⟨rfl, rfl⟩
        | err => intro h; cases h
        | panicked => intro h; cases h
      · cases h
        exact ⟨rfl, rfl⟩
theorem process_raw_known_sdLog (sp : Nat) (tv : Option Nat) (p : RawPacket)
    (st : OrchState) (st2 : OrchState)
    (h : process_raw_packet sp tv p st = .ok st2) :
    (st2.known_ports = st.known_ports ∧ st2.sdLog = st.sdLog) ∨
    (∃ sd, st2.known_ports = learn_ports_from_sd sd st.known_ports ∧
      st2.sdLog = st.sdLog ++ [sd]) := by
  unfold process_raw_packet at h
  split at h
  · cases h
  · cases h
  · rename_i ll hll
    simp only [] at h
    split at h
    · cases h; left; exact ⟨rfl, rfl⟩
    · split at h
      · cases h
      · cases h
      · split at h
        · cases h
        · cases h
        · split at h
          · exact process_udp_known_sdLog _ _ _ _ _ _ _ _ h
          · exact Or.inl (process_tcp_known_sdLog _ _ _ _ _ _ _ h)
theorem step_ports_mono (sp : Nat) (tv : Option Nat) (p : RawPacket)
    (st st2 : OrchState) (h : process_raw_packet sp tv p st = .ok st2) :
    st.known_ports ⊆ st2.known_ports ∧ (portsInv sp st → portsInv sp st2) := by
  rcases process_raw_known_sdLog sp tv p st st2 h with ⟨hk, hl⟩ | ⟨sd, hk, hl⟩
  · constructor
    · rw [hk]; exact fun q hq => hq
    · intro ⟨hsp, hlog⟩
      refine ⟨by rw [hk]; exact hsp, ?_⟩
      rw [hk, hl]
      exact hlog
  · have hsub : st.known_ports ⊆ st2.known_ports := by
      rw [hk]
      exact subset_foldl_learnStep sd.options st.known_ports
    refine ⟨hsub, ?_⟩
    intro ⟨hsp, hlog⟩
    refine ⟨hsub hsp, ?_⟩
    intro sd2 hmem q hq
    rw [hl] at hmem
    rcases List.mem_append.mp hmem with hold | hnew
    · exact hsub (hlog sd2 hold q hq)
    · have : sd2 = sd := by simpa using hnew
      subst this
      rw [hk]
      exact learn_contains_option_ports sd2 st.known_ports q hq

theorem run_ports_mono (sp : Nat) (tv : Option Nat) (l : List RawPacket) :
    ∀ st st2 : OrchState, processPackets sp tv l st = .ok st2 →
      st.known_ports ⊆ st2.known_ports ∧ (portsInv sp st → portsInv sp st2) := by
  induction l with
  | nil =>
    intro st st2 h
    cases h
    exact ⟨fun q hq => hq, id⟩
  | cons p rest ih =>
    intro st st2 h
    simp only [processPackets] at h
    split at h
    · rename_i st3 hstep
      have h1 := step_ports_mono sp tv p st st3 hstep
      have h2 := ih st3 st2 h
      exact ⟨fun q hq => h2.1 (h1.1 hq), fun hi => h2.2 (h1.2 hi)⟩
    · cases h
    · cases h
/-- C6: throughout a run the known-ports set only grows.  For any run split
as `pre ++ suffix` that processes successfully: the set after `pre` is
contained in the set after the whole run, the configured SD port (its
initialization value) is in both, and after any prefix the set contains
every endpoint/multicast/SD-endpoint option port of every SD packet
processed so far (the ghost `sdLog` records exactly those packets). -/
theorem known_ports_grow_only_and_complete (sp rt tt ct : Nat) (tv : Option Nat)
    (pre suffix : List RawPacket) (s1 s2 : OrchState)
    (h1 : processPackets sp tv pre (initOrchState sp rt tt ct) = .ok s1)
    (h2 : processPackets sp tv suffix s1 = .ok s2) :
    s1.known_ports ⊆ s2.known_ports ∧
    sp ∈ s1.known_ports ∧ sp ∈ s2.known_ports ∧
    (∀ sd ∈ s1.sdLog, ∀ p, p ∈ sdOptionPorts sd → p ∈ s1.known_ports) ∧
    (∀ sd ∈ s2.sdLog, ∀ p, p ∈ sdOptionPorts sd → p ∈ s2.known_ports) := by
  have hinit : portsInv sp (initOrchState sp rt tt ct) := by
    constructor
    · simp [initOrchState]
    · intro sd hsd
      simp [initOrchState] at hsd
  have ha := run_ports_mono sp tv pre (initOrchState sp rt tt ct) s1 h1
  have hb := run_ports_mono sp tv suffix s1 s2 h2
  have hi1 : portsInv sp s1 := ha.2 hinit
  have hi2 : portsInv sp s2 := hb.2 hi1
  exact ⟨hb.1, hi1.1, hi2.1, hi1.2, hi2.2⟩

theorem known_ports_witness :
    30490 ∈ stAfterSd.known_ports ∧ 50001 ∈ stAfterSd.known_ports ∧
    50001 ∈ stAfterSd2.known_ports := by
  have h := known_ports_grow_only_and_complete 30490 5 30 60 none
    [pktSd] [pktNotifPadded] stAfterSd stAfterSd2 rfl rfl
  refine ⟨h.2.1, ?_, ?_⟩
  · exact h.2.2.2.1 sdSeen (by decide) 50001 (by decide)
  · exact h.1 (h.2.2.2.1 sdSeen (by decide) 50001 (by decide))

theorem keys_alistInsert_nodup {κ ν : Type} [BEq κ] [LawfulBEq κ] (k : κ) (v : ν)
    (l : List (κ × ν)) (h : (l.map Prod.fst).Nodup) :
    ((alistInsert k v l).map Prod.fst).Nodup := by
  unfold alistInsert
  rw [List.map_append]
  apply List.Nodup.append
  · exact h.sublist (List.Sublist.map Prod.fst (List.filter_sublist l))
  · simp
  · intro a ha hb
    simp only [List.map_cons, List.map_nil, List.mem_singleton] at hb
    subst hb
    rw [List.mem_map] at ha
    obtain ⟨p, hp, hpa⟩ := ha
    rw [List.mem_filter] at hp
    have hpk : (p.1 == a) = false := by
      rcases hp with ⟨_, hpf⟩
      simpa using hpf
    rw [hpa] at hpk
    simp at hpk

theorem keys_filter_nodup {κ ν : Type} (pred : κ × ν → Bool) (l : List (κ × ν))
    (h : (l.map Prod.fst).Nodup) : ((l.filter pred).map Prod.fst).Nodup :=
  h.sublist (List.Sublist.map Prod.fst (List.filter_sublist l))

theorem alistLookup_alistRemove_self {κ ν : Type} [BEq κ] [LawfulBEq κ] (k : κ)
    (l : List (κ × ν)) : alistLookup k (alistRemove k l) = none := by
  unfold alistLookup alistRemove
  rw [Option.map_eq_none']
  apply List.find?_eq_none.mpr
  intro p hp
  rw [List.mem_filter] at hp
  rcases hp with ⟨_, hpf⟩
  simp at hpf
  simp [hpf]

theorem alistLookup_alistInsert_self {κ ν : Type} [BEq κ] [LawfulBEq κ] (k : κ) (v : ν)
    (l : List (κ × ν)) : alistLookup k (alistInsert k v l) = some v := by
  unfold alistLookup alistInsert
  rw [List.find?_append]
  have h1 : List.find? (fun p => p.1 == k) (l.filter fun p => !(p.1 == k)) = none := by
    apply List.find?_eq_none.mpr
    intro p hp
    rw [List.mem_filter] at hp
    simpa using hp.2
  rw [h1]
  simp

/-- C4: for any TP key at most one pending reassembly exists at any time
(key-uniqueness of the pending map is preserved by every step), and an
emission through the non-first completion path removes the key — but, as
amended, a fragment with `is_first = 1` and `is_last = 1` emits immediately
while *inserting* (not omitting) pending state for its key, which only expiry
or a later first fragment removes. -/
theorem tp_pending_state_discipline (s : TPParser) (now : Nat) (seg : TPSegment) :
    (∀ m s2, (tpKeys s).Nodup → s.process_segment now seg = .ok (m, s2) →
      (tpKeys s2).Nodup) ∧
    (∀ m s2, seg.is_first = false → s.process_segment now seg = .ok (some m, s2) →
      alistLookup (segKey seg) s2.pending_messages = none) ∧
    (seg.is_first = true → seg.is_last = true →
      ∃ s2, s.process_segment now seg = .ok (some ⟨seg.header, seg.payload⟩, s2) ∧
        (alistLookup (segKey seg) s2.pending_messages).isSome = true) := by
  refine ⟨?_, ?_, ?_⟩
  · intro m s2 hnd h
    have hclean : (tpKeys (s.cleanup_expired_messages now)).Nodup := by
      unfold TPParser.cleanup_expired_messages tpKeys
      unfold tpKeys at hnd
      exact keys_filter_nodup _ _ hnd
    unfold TPParser.process_segment at h
    split at h
    · split at h
      · cases h
        exact keys_alistInsert_nodup _ _ _ hclean
      · cases h
        exact keys_alistInsert_nodup _ _ _ hclean
    · simp only [] at h
      cases halk : alistLookup (seg.header.service_id, seg.header.client_id, seg.header.session_id)
          (s.cleanup_expired_messages now).pending_messages with
      | none =>
        rw [halk] at h
        simp only [] at h
        cases h
        exact hclean
      | some pm0 =>
        rw [halk] at h
        simp only [] at h
        split at h
        · cases h
          exact keys_alistInsert_nodup _ _ _ hclean
        · cases hlast : seg.is_last with
          | true =>
            rw [hlast] at h
            simp only [eq_self_iff_true, if_true] at h
            split at h
            · revert h
              cases TPParser.reassemble_message _ with
              | ok mm =>
                intro h
                cases h
                exact keys_filter_nodup _ _ hclean
              | err => intro h; cases h
              | panicked => intro h; cases h
            · cases h
              exact keys_alistInsert_nodup _ _ _ hclean
          | false =>
            rw [hlast] at h
            simp only [Bool.false_eq_true, if_false] at h
            split at h
            · split at h
              · revert h
                cases TPParser.reassemble_message _ with
                | ok mm =>
                  intro h
                  cases h
                  exact keys_filter_nodup _ _ hclean
                | err => intro h; cases h
                | panicked => intro h; cases h
              · cases h
                exact keys_alistInsert_nodup _ _ _ hclean
            · cases h
              exact keys_alistInsert_nodup _ _ _ hclean
  · intro m s2 hnf h
    unfold TPParser.process_segment at h
    rw [hnf] at h
    simp only [Bool.false_eq_true, if_false] at h
    cases halk : alistLookup (seg.header.service_id, seg.header.client_id, seg.header.session_id)
        (s.cleanup_expired_messages now).pending_messages with
    | none =>
      rw [halk] at h
      simp only [] at h
      cases h
    | some pm0 =>
      rw [halk] at h
      simp only [] at h
      split at h
      · cases h
      · cases hlast : seg.is_last with
        | true =>
          rw [hlast] at h
          simp only [eq_self_iff_true, if_true] at h
          split at h
          · revert h
            cases TPParser.reassemble_message _ with
            | ok mm =>
              intro h
              cases h
              exact alistLookup_alistRemove_self _ _
            | err => intro h; cases h
            | panicked => intro h; cases h
          · cases h
        | false =>
          rw [hlast] at h
          simp only [Bool.false_eq_true, if_false] at h
          split at h
          · split at h
            · revert h
              cases TPParser.reassemble_message _ with
              | ok mm =>
                intro h
                cases h
                exact alistLookup_alistRemove_self _ _
              | err => intro h; cases h
              | panicked => intro h; cases h
            · cases h
          · cases h
  · intro hf hl
    refine ⟨⟨alistInsert (segKey seg)
        ⟨seg.header, [(seg.offset, seg.payload)], w32 (seg.offset + seg.payload.length),
         some (w32 (seg.offset + seg.payload.length)), now⟩
        ((s.cleanup_expired_messages now).pending_messages),
        (s.cleanup_expired_messages now).timeout⟩, ?_, ?_⟩
    · unfold TPParser.process_segment
      rw [hf, hl]
      rfl
    · rw [show segKey seg = (seg.header.service_id, seg.header.client_id, seg.header.session_id) from rfl]
      rw [alistLookup_alistInsert_self]
      rfl

/-- Witness for C4: the reassembler `tpWPre` holds one pending message for
key (0x1234, 1, 2); its final in-order fragment emits the reassembled
5-byte message and the completion path removes the pending entry. -/
theorem tp_pending_state_discipline_witness :
    alistLookup ((0x1234 : Nat), (1 : Nat), (2 : Nat))
      ([] : List ((Nat × Nat × Nat) × PendingMessage)) = none :=
  (tp_pending_state_discipline tpWPre 0 segWLast).2.1
    ⟨tpHdr 56, [5, 5, 6, 6, 6]⟩ ⟨[], 30⟩ rfl rfl

/-- C8: with the pair count at the capacity bound, `add_request` evicts the
oldest pending key before inserting; with capacity 2 and three requests with
distinct keys, exactly the two most recently inserted keys remain and the
first-inserted key is gone (also from the pending queue). -/
theorem add_request_capacity_eviction (t now1 now2 now3 : Nat) (m1 m2 m3 : SomeIPMessage)
    (h12 : sessionKey m1 ≠ sessionKey m2) (h13 : sessionKey m1 ≠ sessionKey m3)
    (h23 : sessionKey m2 ≠ sessionKey m3) :
    ((((SessionManager.new t 2).add_request now1 m1).add_request now2 m2).add_request now3 m3).sessions =
      [(sessionKey m2, ⟨m2, none, now2 + t⟩), (sessionKey m3, ⟨m3, none, now3 + t⟩)] ∧
    ((((SessionManager.new t 2).add_request now1 m1).add_request now2 m2).add_request now3 m3).pending_responses =
      [sessionKey m2, sessionKey m3] := by
  have b12 : (sessionKey m1 == sessionKey m2) = false := beq_eq_false_iff_ne.mpr h12
  have b21 : (sessionKey m2 == sessionKey m1) = false := beq_eq_false_iff_ne.mpr (Ne.symm h12)
  have b23 : (sessionKey m2 == sessionKey m3) = false := beq_eq_false_iff_ne.mpr h23
  have b11 : (sessionKey m1 == sessionKey m1) = true := beq_self_eq_true _
  have _hu : sessionKey m1 ≠ sessionKey m3 := h13
  simp [SessionManager.new, SessionManager.add_request, evictOldestLoop,
        alistInsert, alistRemove, alistLookup, b12, b21, b23, b11]

/-- Witness for C8: three concrete requests with distinct session ids under
capacity 2 leave exactly the second and third keys. -/
theorem add_request_capacity_eviction_witness :
    ((((SessionManager.new 5 2).add_request 0 (mkReq 1)).add_request 1 (mkReq 2)).add_request 2 (mkReq 3)).sessions =
      [(sessionKey (mkReq 2), ⟨mkReq 2, none, 1 + 5⟩), (sessionKey (mkReq 3), ⟨mkReq 3, none, 2 + 5⟩)] ∧
    ((((SessionManager.new 5 2).add_request 0 (mkReq 1)).add_request 1 (mkReq 2)).add_request 2 (mkReq 3)).pending_responses =
      [sessionKey (mkReq 2), sessionKey (mkReq 3)] :=
  add_request_capacity_eviction 5 0 1 2 (mkReq 1) (mkReq 2) (mkReq 3)
    (by decide) (by decide) (by decide)

theorem msiFuel_wf_no_panic : ∀ fuel p, msiWellFormedFuel fuel p = true →
    msi_fuel fuel p ≠ .panicked := by
  intro fuel
  induction fuel with
  | zero =>
    intro p hw
    simp [msi_fuel]
  | succ n ih =>
    intro p hw
    unfold msi_fuel
    unfold msiWellFormedFuel at hw
    split
    · simp
    · next hlen =>
      rw [if_neg hlen] at hw
      cases hph : parse_someip_header p with
      | ok rest header =>
        rw [hph] at hw
        simp only [] at hw ⊢
        split
        · next hgt => rw [if_pos hgt] at hw; simp
        · next hgt =>
          rw [if_neg hgt] at hw
          split
          · next hlt => rw [if_pos hlt] at hw; cases hw
          · next hlt =>
            rw [if_neg hlt] at hw
            have hrec := ih (p.drop header.length) hw
            cases hmf : msi_fuel n (p.drop header.length) with
            | ok msgs => simp [hmf]
            | err => simp [hmf]
            | panicked => exact absurd hmf hrec
      | err =>
        simp
      | panicked =>
        rw [hph] at hw
        simp only [] at hw
        cases hw

/-- C10 (amended): `parse_msi_packet` terminates on every input and returns
`Ok` or `Err` — without the out-of-bounds panic — on every input whose walk
never meets an embedded header with `length < 16` while 16 or more bytes
remain; such a header makes the source's `message_data[16..]` slice panic
(see the counterexample). -/
theorem parse_msi_total_unless_short_embedded_length (p : List Nat)
    (hw : msiWellFormed p = true) : parse_msi_packet p ≠ .panicked := by
  unfold parse_msi_packet msi_loop
  unfold msiWellFormed at hw
  have hnp := msiFuel_wf_no_panic (p.length + 1) p hw
  cases hmf : msi_fuel (p.length + 1) p with
  | ok msgs => simp
  | err => simp
  | panicked => exact absurd hmf hnp

/-- Witness for C10: a well-formed single-message container is accepted. -/
theorem parse_msi_total_witness :
    msiWellFormed msiGood = true ∧ parse_msi_packet msiGood ≠ .panicked :=
  ⟨rfl, parse_msi_total_unless_short_embedded_length msiGood rfl⟩

theorem insertSegSorted_perm (s : TcpSegment) (l : List TcpSegment) :
    List.Perm (insertSegSorted s l) (s :: l) := by
  induction l with
  | nil => rfl
  | cons q rest ih =>
    unfold insertSegSorted
    split
    · rfl
    · exact ((ih.cons q).trans (List.Perm.swap s q rest))

theorem insertSegSorted_mem {x : TcpSegment} (s : TcpSegment) (l : List TcpSegment) :
    x ∈ insertSegSorted s l ↔ x = s ∨ x ∈ l := by
  rw [(insertSegSorted_perm s l).mem_iff]
  simp

theorem insertSegSorted_pairwise (s : TcpSegment) (l : List TcpSegment)
    (h : l.Pairwise (fun a b => a.seq_num ≤ b.seq_num)) :
    (insertSegSorted s l).Pairwise (fun a b => a.seq_num ≤ b.seq_num) := by
  induction l with
  | nil => simp [insertSegSorted]
  | cons q rest ih =>
    rw [List.pairwise_cons] at h
    unfold insertSegSorted
    split
    · next hlt =>
      rw [List.pairwise_cons]
      refine ⟨?_, List.pairwise_cons.mpr h⟩
      intro b hb
      rcases List.mem_cons.mp hb with hbq | hbr
      · subst hbq; omega
      · have := h.1 b hbr; omega
    · next hge =>
      rw [List.pairwise_cons]
      refine ⟨?_, ih h.2⟩
      intro b hb
      rcases (insertSegSorted_mem s rest).mp hb with hbs | hbr
      · subst hbs; omega
      · exact h.1 b hbr

theorem sortBySeq_foldl_perm (l : List TcpSegment) :
    ∀ acc : List TcpSegment,
      List.Perm (l.foldl (fun acc s => insertSegSorted s acc) acc) (acc ++ l) := by
  induction l with
  | nil => intro acc; simp
  | cons s rest ih =>
    intro acc
    rw [List.foldl_cons]
    refine (ih (insertSegSorted s acc)).trans ?_
    refine (((insertSegSorted_perm s acc).append_right rest).trans ?_)
    simp only [List.cons_append]
    exact List.perm_middle.symm

theorem sortBySeq_perm (l : List TcpSegment) : List.Perm (sortBySeq l) l := by
  unfold sortBySeq
  simpa using sortBySeq_foldl_perm l []

theorem sortBySeq_foldl_pairwise (l : List TcpSegment) :
    ∀ acc : List TcpSegment, acc.Pairwise (fun a b => a.seq_num ≤ b.seq_num) →
      (l.foldl (fun acc s => insertSegSorted s acc) acc).Pairwise
        (fun a b => a.seq_num ≤ b.seq_num) := by
  induction l with
  | nil => intro acc h; simpa using h
  | cons s rest ih =>
    intro acc h
    rw [List.foldl_cons]
    exact ih _ (insertSegSorted_pairwise s acc h)

theorem sortBySeq_pairwise (l : List TcpSegment) :
    (sortBySeq l).Pairwise (fun a b => a.seq_num ≤ b.seq_num) := by
  unfold sortBySeq
  exact sortBySeq_foldl_pairwise l [] (by simp)

/-- C7: admission trichotomy of `process_tcp_packet` on an established
stream (present after cleanup, no SYN/RST/FIN, capacity not exceeded) for a
non-empty payload of length L at sequence S: at the expected sequence the
segment is consumed, `expected` advances past it, in-order held segments are
drained, and the concatenation is emitted as one chunk; above the expected
sequence the segment joins the hold-queue which is kept sorted by sequence
number (a permutation of the previous queue plus the segment) and nothing is
emitted; below it the segment is discarded and nothing is emitted. -/
theorem tcp_admission_trichotomy (fc fc1 : TcpFlowController) (src dst : List Nat)
    (tcp : TCPPacketInfo) (payload : List Nat) (now : Nat) (stream : TcpStream)
    (hclean : fc.cleanup_expired_connections now = fc1)
    (hlook : alistLookup (tcpKeyOf src dst tcp) fc1.connections = some stream)
    (hcap : fc1.connections.length < fc1.max_connections)
    (hsyn : tcp.flags.syn = false) (hrst : tcp.flags.rst = false)
    (hfin : tcp.flags.fin = false) (hpl : payload ≠ []) :
    (tcp.seq_num = stream.expected_seq →
      fc.process_tcp_packet src dst tcp payload now =
        .ok (some (drainSegments stream.segments
            (w32 (stream.expected_seq + payload.length)) payload).2.2,
          { fc1 with connections := (alistInsert (tcpKeyOf src dst tcp) ({ stream with last_activity := now, window_size := tcp.window_size, segments := (drainSegments stream.segments (w32 (stream.expected_seq + payload.length)) payload).1.filter (fun s => now - s.timestamp ≤ fc.segment_timeout), expected_seq := (drainSegments stream.segments (w32 (stream.expected_seq + payload.length)) payload).2.1 }) fc1.connections) })) ∧
    (stream.expected_seq < tcp.seq_num →
      fc.process_tcp_packet src dst tcp payload now =
        .ok (none, { fc1 with connections := (alistInsert (tcpKeyOf src dst tcp) ({ stream with last_activity := now, window_size := tcp.window_size, segments := sortBySeq (stream.segments ++ [⟨tcp.seq_num, payload, now⟩]) }) fc1.connections) }) ∧
      (sortBySeq (stream.segments ++ [⟨tcp.seq_num, payload, now⟩])).Pairwise
        (fun a b => a.seq_num ≤ b.seq_num) ∧
      List.Perm (sortBySeq (stream.segments ++ [⟨tcp.seq_num, payload, now⟩]))
        (stream.segments ++ [⟨tcp.seq_num, payload, now⟩])) ∧
    (tcp.seq_num < stream.expected_seq →
      fc.process_tcp_packet src dst tcp payload now =
        .ok (none, { fc1 with connections := (alistInsert (tcpKeyOf src dst tcp) ({ stream with last_activity := now, window_size := tcp.window_size }) fc1.connections) })) := by
  have hncap : ¬(fc1.connections.length ≥ fc1.max_connections) := by omega
  simp only [tcpKeyOf] at hlook
  refine ⟨?_, ?_, ?_⟩
  · intro hcase
    unfold TcpFlowController.process_tcp_packet
    rw [hclean]
    simp only [hncap, if_false, hlook, Option.getD_some, hsyn, hrst, hfin,
      Bool.false_eq_true, false_and, if_true, hpl, hcase, eq_self_iff_true,
      ite_true, ite_false, tcpKeyOf]
  · intro hcase
    have hne : ¬(tcp.seq_num = stream.expected_seq) := by omega
    refine ⟨?_, sortBySeq_pairwise _, sortBySeq_perm _⟩
    unfold TcpFlowController.process_tcp_packet
    rw [hclean]
    simp only [hncap, if_false, hlook, Option.getD_some, hsyn, hrst, hfin,
      Bool.false_eq_true, false_and, if_true, hpl, hne, hcase, eq_self_iff_true,
      ite_true, ite_false, tcpKeyOf]
  · intro hcase
    have hne : ¬(tcp.seq_num = stream.expected_seq) := by omega
    have hnlt : ¬(stream.expected_seq < tcp.seq_num) := by omega
    unfold TcpFlowController.process_tcp_packet
    rw [hclean]
    simp only [hncap, if_false, hlook, Option.getD_some, hsyn, hrst, hfin,
      Bool.false_eq_true, false_and, if_true, hpl, hne, hnlt, eq_self_iff_true,
      ite_true, ite_false, tcpKeyOf]

/-- Witness for C7: the in-order 40-byte segment at sequence 1000 is
consumed, the held segment at 1040 is drained, and one 80-byte chunk is
emitted. -/
theorem tcp_admission_trichotomy_witness :
    fcC7.process_tcp_packet [10, 0, 0, 1] [10, 0, 0, 2] tcpC7 (List.replicate 40 1) 5 =
      .ok (some (List.replicate 40 1 ++ List.replicate 40 2), fcC7after) := by
  have h := (tcp_admission_trichotomy fcC7 fcC7 [10, 0, 0, 1] [10, 0, 0, 2] tcpC7
    (List.replicate 40 1) 5 streamC7 rfl rfl (by decide) rfl rfl rfl (by decide)).1 rfl
  exact h

end SomeipSpec
